import Mathlib

/-!
Verification development for the f5-fast-core template engine
(lib/template.js).  The JavaScript source is shallowly embedded:
JS plain values are modelled by the JVal type, JS objects by
insertion-ordered association structures (JObj), exceptions by
Except String, and the mutable Template instance by an explicitly
threaded TemplateNC state record.  External collaborators (the
Mustache tokenizer, the deepmerge library, yaml/JSON parsing,
the ajv validator, the math-expression evaluator) are modelled at
the interface the engine uses, as stated in each doc comment.
-/

namespace FastCore

/-! JSON-like dynamic values of the JavaScript engine.  Numbers are
modelled as integers (no floating point arithmetic is exercised by the
modelled code paths); js undefined is modelled as Option.none at the
lookup sites where it can occur. -/
mutual
inductive JVal where
  | null : JVal
  | boolean : Bool → JVal
  | num : Int → JVal
  | str : String → JVal
  | arr : JArr → JVal
  | obj : JObj → JVal
inductive JArr where
  | nil : JArr
  | cons : JVal → JArr → JArr
inductive JObj where
  | nil : JObj
  | cons : String → JVal → JObj → JObj
end

/-- Lookup of an own property, first match (JS object keys are unique;
all constructors below preserve that). -/
def JObj.lookup : JObj → String → Option JVal
  | .nil, _ => none
  | .cons k v rest, key => if k = key then some v else rest.lookup key

/-- Property assignment: an existing key keeps its insertion position,
a new key is appended, as for JS object property creation. -/
def JObj.set : JObj → String → JVal → JObj
  | .nil, k, v => .cons k v .nil
  | .cons k2 v2 rest, k, v => if k2 = k then .cons k v rest else .cons k2 v2 (rest.set k v)

/-- The JS delete operator on an own property. -/
def JObj.erase : JObj → String → JObj
  | .nil, _ => .nil
  | .cons k2 v2 rest, k => if k2 = k then rest else .cons k2 v2 (rest.erase k)

/-- Object.assign(dst, src): assign every source field onto dst in order. -/
def JObj.assignFrom (dst : JObj) : JObj → JObj
  | .nil => dst
  | .cons k v rest => (dst.set k v).assignFrom rest

def JObj.keysList : JObj → List String
  | .nil => []
  | .cons k _ rest => k :: rest.keysList

def JObj.size : JObj → Nat
  | .nil => 0
  | .cons _ _ rest => rest.size + 1

def JArr.append : JArr → JArr → JArr
  | .nil, ys => ys
  | .cons x xs, ys => .cons x (xs.append ys)

def JArr.toList : JArr → List JVal
  | .nil => []
  | .cons x xs => x :: xs.toList

def jarrOfList : List JVal → JArr
  | [] => .nil
  | x :: xs => .cons x (jarrOfList xs)

/-- JS truthiness of a value (NaN is not modelled). -/
def jsTruthy : JVal → Bool
  | .null => false
  | .boolean b => b
  | .num n => n != 0
  | .str s => s ≠ ""
  | .arr _ => true
  | .obj _ => true

/-- Truthiness of a possibly absent (undefined) value. -/
def truthyOpt : Option JVal → Bool
  | some v => jsTruthy v
  | none => false

/-- JS SameValueZero / strict equality restricted to the cases the engine
hits: primitives compare by value; two object or array values built at
different places are distinct references in JS and therefore compare
unequal here.  (Comparing an object with itself through one reference is
not representable; the modelled code only compares primitive fields.) -/
def jsSVZ : JVal → JVal → Bool
  | .null, .null => true
  | .boolean a, .boolean b => a = b
  | .num a, .num b => a = b
  | .str a, .str b => a = b
  | _, _ => true = false

/-- Strict equality on possibly-undefined values: undefined === undefined. -/
def svzOpt : Option JVal → Option JVal → Bool
  | none, none => true
  | some a, some b => jsSVZ a b
  | _, _ => true = false

/-- Decimal digits of a Nat, fuel-indexed so that the kernel can reduce it. -/
def natDecimalAux : Nat → Nat → List Char
  | 0, _ => []
  | fuel + 1, n =>
    if n < 10 then [Char.ofNat (48 + n)]
    else natDecimalAux fuel (n / 10) ++ [Char.ofNat (48 + n % 10)]

def natDecimal (n : Nat) : String := ⟨natDecimalAux (n + 1) n⟩

def intDecimal (i : Int) : String :=
  if i < 0 then "-" ++ natDecimal i.natAbs else natDecimal i.natAbs

/-! JS String(value) coercion for the values reaching template literals in
error messages (array elements joined by commas, objects printed as
[object Object]). -/
mutual
def jsToString : JVal → String
  | .null => "null"
  | .boolean true => "true"
  | .boolean false => "false"
  | .num n => intDecimal n
  | .str s => s
  | .arr xs => jsToStringArr xs
  | .obj _ => "[object Object]"
def jsToStringArr : JArr → String
  | .nil => ""
  | .cons x .nil => jsToString x
  | .cons x rest => jsToString x ++ "," ++ jsToStringArr rest
end

/-- Display of a possibly-undefined value inside a template literal. -/
def dispOpt : Option JVal → String
  | none => "undefined"
  | some v => jsToString v

/-- Fields of a value when it is an object; Object.assign from a
primitive copies no (relevant) fields, so non-objects contribute none.
(The JS corner case of spreading the index properties of a string is not
exercised by the modelled paths.) -/
def objFieldsOf : JVal → JObj
  | .obj fs => fs
  | _ => .nil

def objFieldsOfOpt : Option JVal → JObj
  | some v => objFieldsOf v
  | none => .nil

/-- Property read v.k for a value that may not be an object: undefined. -/
def objField (v : JVal) (k : String) : Option JVal :=
  match v with
  | .obj fs => fs.lookup k
  | _ => none

/-- The expression x || {} of the source: the value when truthy, else
an empty object. -/
def jsOrEmptyObj (o : Option JVal) : JVal :=
  match o with
  | some v => if jsTruthy v then v else .obj .nil
  | none => .obj .nil

/-- The expression x || d of the source on values. -/
def jsOrDefault (o : Option JVal) (d : JVal) : JVal :=
  match o with
  | some v => if jsTruthy v then v else d
  | none => d

/-- The isMergeableObject default of the deepmerge library: plain objects
and arrays merge, everything else is replaced. -/
def isMergeable : JVal → Bool
  | .arr _ => true
  | .obj _ => true
  | _ => false

/-! The deepmerge npm library (v4) with a configurable arrayMerge, as
called by the source.  Both arrays: arrayMerge.  Both non-arrays where
source and target are plain objects: per-key merge, target keys first,
a shared key recursing when the source value is mergeable.  Otherwise
the (cloned) source value wins.  (The degenerate library behaviour of
merging two primitives through Object.keys of a primitive is never
exercised by the engine and is modelled as returning the source.) -/
mutual
def deepmergeWith (am : JArr → JArr → JArr) : JVal → JVal → JVal
  | .arr t, .arr s => .arr (am t s)
  | .obj t, .obj s => .obj (mergeObjFields am t s)
  | _, s => s
def mergeObjFields (am : JArr → JArr → JArr) : JObj → JObj → JObj
  | tf, .nil => tf
  | tf, .cons k v rest =>
    let newV := match JObj.lookup tf k with
      | some tv => if isMergeable v then deepmergeWith am tv v else v
      | none => v
    mergeObjFields am (tf.set k newV) rest
end

/-- The default arrayMerge of deepmerge: target.concat(source). -/
def concatAM : JArr → JArr → JArr := JArr.append

/-- Source line 33: const arrayMergeOverwrite = (dstArray, srcArray) => srcArray. -/
def arrayMergeOverwrite : JArr → JArr → JArr := fun _ srcArray => srcArray

/-- deepmerge.all: fold deepmerge over the list starting from an empty object. -/
def deepmergeAll (am : JArr → JArr → JArr) (vs : List JVal) : JVal :=
  vs.foldl (deepmergeWith am) (.obj .nil)

/-- JS String.prototype.split on a separator character. -/
def splitCharsAux (sep : Char) : List Char → List Char → List (List Char)
  | acc, [] => [acc.reverse]
  | acc, c :: cs =>
    if c = sep then acc.reverse :: splitCharsAux sep [] cs
    else splitCharsAux sep (c :: acc) cs

def splitColon (s : String) : List String :=
  (splitCharsAux ':' [] s.data).map (fun cs => ⟨cs⟩)

def listLead : List Char → List Char → Bool
  | [], _ => true
  | _ :: _, [] => true = false
  | p :: ps, c :: cs => p = c && listLead ps cs

/-- JS String.prototype.startsWith. -/
def strLeads (s pat : String) : Bool := listLead pat.data s.data

def listHasSub (pat : List Char) : List Char → Bool
  | [] => listLead pat []
  | c :: cs => listLead pat (c :: cs) || listHasSub pat cs

/-- JS String.prototype.includes / a match against a literal regex. -/
def strHas (s pat : String) : Bool := listHasSub pat.data s.data

/-- UTF-8 encoding of one character as byte values. -/
def utf8Char (c : Char) : List Nat :=
  let n := c.toNat
  if n < 0x80 then [n]
  else if n < 0x800 then [0xC0 + n / 64, 0x80 + n % 64]
  else if n < 0x10000 then [0xE0 + n / 4096, 0x80 + n / 64 % 64, 0x80 + n % 64]
  else [0xF0 + n / 262144, 0x80 + n / 4096 % 64, 0x80 + n / 64 % 64, 0x80 + n % 64]

/-- UTF-8 encoding of a string as byte values, as Buffer.from(s, utf8). -/
def utf8Encode (s : String) : List Nat := s.data.flatMap utf8Char

/-- UTF-8 decoding, invalid sequences yielding U+FFFD as Node does. -/
def utf8Decode : List Nat → List Char
  | [] => []
  | b :: rest =>
    if b < 0x80 then Char.ofNat b :: utf8Decode rest
    else if 0xC0 ≤ b ∧ b < 0xE0 then
      match rest with
      | b2 :: rest2 =>
        if 0x80 ≤ b2 ∧ b2 < 0xC0 then
          Char.ofNat ((b - 0xC0) * 64 + (b2 - 0x80)) :: utf8Decode rest2
        else Char.ofNat 0xFFFD :: utf8Decode (b2 :: rest2)
      | [] => [Char.ofNat 0xFFFD]
    else if 0xE0 ≤ b ∧ b < 0xF0 then
      match rest with
      | b2 :: b3 :: rest3 =>
        if (0x80 ≤ b2 ∧ b2 < 0xC0) ∧ (0x80 ≤ b3 ∧ b3 < 0xC0) then
          Char.ofNat ((b - 0xE0) * 4096 + (b2 - 0x80) * 64 + (b3 - 0x80)) :: utf8Decode rest3
        else Char.ofNat 0xFFFD :: utf8Decode (b2 :: b3 :: rest3)
      | _ => [Char.ofNat 0xFFFD]
    else if 0xF0 ≤ b ∧ b < 0xF8 then
      match rest with
      | b2 :: b3 :: b4 :: rest4 =>
        if (0x80 ≤ b2 ∧ b2 < 0xC0) ∧ (0x80 ≤ b3 ∧ b3 < 0xC0) ∧ (0x80 ≤ b4 ∧ b4 < 0xC0) then
          Char.ofNat ((b - 0xF0) * 262144 + (b2 - 0x80) * 4096 + (b3 - 0x80) * 64 + (b4 - 0x80))
            :: utf8Decode rest4
        else Char.ofNat 0xFFFD :: utf8Decode (b2 :: b3 :: b4 :: rest4)
      | _ => [Char.ofNat 0xFFFD]
    else Char.ofNat 0xFFFD :: utf8Decode rest

def base64Alphabet : List Char :=
  "ABCDEFGHIJKLMNOPQRSTUVWXYZabcdefghijklmnopqrstuvwxyz0123456789+/".data

def base64Digit (n : Nat) : Char := (base64Alphabet.getD n 'A')

/-- Standard base64 encoding of a byte list, as Buffer.toString(base64). -/
def base64Encode : List Nat → List Char
  | b1 :: b2 :: b3 :: rest =>
    let n := b1 * 65536 + b2 * 256 + b3
    base64Digit (n / 262144) :: base64Digit (n / 4096 % 64)
      :: base64Digit (n / 64 % 64) :: base64Digit (n % 64) :: base64Encode rest
  | [b1, b2] =>
    let n := b1 * 65536 + b2 * 256
    [base64Digit (n / 262144), base64Digit (n / 4096 % 64), base64Digit (n / 64 % 64), '=']
  | [b1] =>
    let n := b1 * 65536
    [base64Digit (n / 262144), base64Digit (n / 4096 % 64), '=', '=']
  | [] => []

def base64Value (c : Char) : Option Nat :=
  let n := c.toNat
  if 65 ≤ n ∧ n ≤ 90 then some (n - 65)
  else if 97 ≤ n ∧ n ≤ 122 then some (n - 97 + 26)
  else if 48 ≤ n ∧ n ≤ 57 then some (n - 48 + 52)
  else if c = '+' then some 62
  else if c = '/' then some 63
  else none

/-- Base64 decoding of the significant characters, as Buffer.from(s,
base64), which skips characters outside the alphabet. -/
def base64Groups : List Nat → List Nat
  | v1 :: v2 :: v3 :: v4 :: rest =>
    let n := v1 * 262144 + v2 * 4096 + v3 * 64 + v4
    n / 65536 :: n / 256 % 256 :: n % 256 :: base64Groups rest
  | [v1, v2, v3] =>
    let n := v1 * 262144 + v2 * 4096 + v3 * 64
    [n / 65536, n / 256 % 256]
  | [v1, v2] =>
    let n := v1 * 262144 + v2 * 4096
    [n / 65536]
  | [_] => []
  | [] => []

def base64Decode (s : String) : List Nat :=
  base64Groups (s.data.filterMap base64Value)

/-! SHA-256 (FIPS 180-4) over byte lists, with 32-bit words as Nat
values reduced mod 2^32, modelling crypto.createHash(sha256). -/

def w32 (n : Nat) : Nat := n % 4294967296

def rotr32 (x n : Nat) : Nat := w32 (x / 2 ^ n + x % 2 ^ n * 2 ^ (32 - n))

def shr32 (x n : Nat) : Nat := x / 2 ^ n

def sha256K : List Nat :=
  [1116352408, 1899447441, 3049323471, 3921009573, 961987163, 1508970993,
   2453635748, 2870763221, 3624381080, 310598401, 607225278, 1426881987,
   1925078388, 2162078206, 2614888103, 3248222580, 3835390401, 4022224774,
   264347078, 604807628, 770255983, 1249150122, 1555081692, 1996064986,
   2554220882, 2821834349, 2952996808, 3210313671, 3336571891, 3584528711,
   113926993, 338241895, 666307205, 773529912, 1294757372, 1396182291,
   1695183700, 1986661051, 2177026350, 2456956037, 2730485921, 2820302411,
   3259730800, 3345764771, 3516065817, 3600352804, 4094571909, 275423344,
   430227734, 506948616, 659060556, 883997877, 958139571, 1322822218,
   1537002063, 1747873779, 1955562222, 2024104815, 2227730452, 2361852424,
   2428436474, 2756734187, 3204031479, 3329325298]

def sha256Pad (msg : List Nat) : List Nat :=
  let len := msg.length
  let bitLen := len * 8
  let zeros := (55 + 64 - len % 64) % 64
  msg ++ [0x80] ++ List.replicate zeros 0
    ++ [bitLen / 2 ^ 56 % 256, bitLen / 2 ^ 48 % 256, bitLen / 2 ^ 40 % 256, bitLen / 2 ^ 32 % 256,
        bitLen / 2 ^ 24 % 256, bitLen / 2 ^ 16 % 256, bitLen / 2 ^ 8 % 256, bitLen % 256]

def bytesToWords : List Nat → List Nat
  | b1 :: b2 :: b3 :: b4 :: rest => (b1 * 16777216 + b2 * 65536 + b3 * 256 + b4) :: bytesToWords rest
  | _ => []

def chunksWordsAux : Nat → List Nat → List (List Nat)
  | 0, _ => []
  | _ + 1, [] => []
  | fuel + 1, ws => ws.take 16 :: chunksWordsAux fuel (ws.drop 16)

def sha256Extend (fuel : Nat) (w : List Nat) : List Nat :=
  match fuel with
  | 0 => w
  | f + 1 =>
    let i := w.length
    let a := w.getD (i - 15) 0
    let b := w.getD (i - 2) 0
    let s0 := Nat.xor (Nat.xor (rotr32 a 7) (rotr32 a 18)) (shr32 a 3)
    let s1 := Nat.xor (Nat.xor (rotr32 b 17) (rotr32 b 19)) (shr32 b 10)
    sha256Extend f (w ++ [w32 (w.getD (i - 16) 0 + s0 + w.getD (i - 7) 0 + s1)])

def sha256Compress (h : List Nat) (chunk : List Nat) : List Nat :=
  let ws := sha256Extend 48 chunk
  let step := fun (st : List Nat) (kw : Nat × Nat) =>
    match st with
    | [a, b, c, d, e, f, g, hh] =>
      let s1 := Nat.xor (Nat.xor (rotr32 e 6) (rotr32 e 11)) (rotr32 e 25)
      let ch := Nat.xor (Nat.land e f) (Nat.land (Nat.xor e 4294967295) g)
      let t1 := w32 (hh + s1 + ch + kw.1 + kw.2)
      let s0 := Nat.xor (Nat.xor (rotr32 a 2) (rotr32 a 13)) (rotr32 a 22)
      let mj := Nat.xor (Nat.xor (Nat.land a b) (Nat.land a c)) (Nat.land b c)
      let t2 := w32 (s0 + mj)
      [w32 (t1 + t2), a, b, c, w32 (d + t1), e, f, g]
    | other => other
  let fin := (sha256K.zip ws).foldl step h
  (h.zip fin).map (fun p => w32 (p.1 + p.2))

def hexDigit (n : Nat) : Char :=
  if n < 10 then Char.ofNat (48 + n) else Char.ofNat (87 + n)

def wordHex (n : Nat) : List Char :=
  [hexDigit (n / 2 ^ 28 % 16), hexDigit (n / 2 ^ 24 % 16), hexDigit (n / 2 ^ 20 % 16),
   hexDigit (n / 2 ^ 16 % 16), hexDigit (n / 2 ^ 12 % 16), hexDigit (n / 2 ^ 8 % 16),
   hexDigit (n / 2 ^ 4 % 16), hexDigit (n % 16)]

def sha256Init : List Nat :=
  [1779033703, 3144134277, 1013904242, 2773480762,
   1359893119, 2600822924, 528734635, 1541459225]

/-- Hex digest of the SHA-256 hash of the UTF-8 bytes of a string, as
crypto.createHash(sha256).update(text).digest(hex). -/
def sha256Hex (s : String) : String :=
  let msg := sha256Pad (utf8Encode s)
  let words := bytesToWords msg
  let chunks := chunksWordsAux (words.length + 1) words
  let h := chunks.foldl sha256Compress sha256Init
  ⟨h.flatMap wordHex⟩

def assocLookup {α : Type} : List (String × α) → String → Option α
  | [], _ => none
  | (k, v) :: rest, key => if k = key then some v else assocLookup rest key

/-- Insertion-ordered JS Set of strings: add is a no-op on a member. -/
def addSet (l : List String) (x : String) : List String :=
  if l.contains x then l else l ++ [x]

def delSet (l : List String) (x : String) : List String :=
  l.filter (fun y => y ≠ x)

def jsOrV (v d : JVal) : JVal := if jsTruthy v then v else d

def jarrMemSVZ (x : JVal) : JArr → Bool
  | .nil => true = false
  | .cons y rest => jsSVZ y x || jarrMemSVZ x rest

def jarrDedupAux (seen : JArr) : JArr → JArr
  | .nil => .nil
  | .cons x rest =>
    if jarrMemSVZ x seen then jarrDedupAux seen rest
    else .cons x (jarrDedupAux (.cons x seen) rest)

/-- The spread of new Set(arr): first occurrences in order, SameValueZero. -/
def jarrDedup (xs : JArr) : JArr := jarrDedupAux .nil xs

def dedupCharsAux (seen : List Char) : List Char → List Char
  | [] => []
  | c :: cs => if seen.contains c then dedupCharsAux seen cs else c :: dedupCharsAux (c :: seen) cs

/-- The spread of new Set(string): the distinct characters in order (a JS
string is iterable, so the engine corner case yields one-char strings). -/
def strCharsSetArr (s : String) : JArr :=
  jarrOfList ((dedupCharsAux [] s.data).map (fun c => JVal.str ⟨[c]⟩))

def setField (v : JVal) (k : String) (x : JVal) : JVal :=
  match v with
  | .obj fs => .obj (fs.set k x)
  | other => other

def eraseField (v : JVal) (k : String) : JVal :=
  match v with
  | .obj fs => .obj (fs.erase k)
  | other => other

/-! Source lines 304-327: Template._mergeSchemaInto(dst, src, dstDeps).
The source filters src.properties (mutating src), Object.assigns the
survivors onto dst.properties and deep-merges the dependencies.  The
model returns the updated (dst, src, dstDeps) triple since the JS code
mutates all three. -/

/-- The noOverwrite condition of source lines 310-314. -/
def noOverwrite (dst : JVal) (k : String) (pv : JVal) : Bool :=
  let dpropsO := objField dst "properties"
  truthyOpt dpropsO &&
  (let dvO := match dpropsO with
    | some dp => objField dp k
    | none => none
   truthyOpt dvO &&
   (let dtO := match dvO with
     | some dv => objField dv "type"
     | none => none
    truthyOpt dtO &&
    (svzOpt dtO (some (.str "array")) || svzOpt dtO (some (.str "string"))) &&
    (let ptO := objField pv "type"
     truthyOpt ptO && svzOpt ptO (some (.str "boolean")))))

def filterNoOverwrite (dst : JVal) : JObj → JObj
  | .nil => .nil
  | .cons k v rest =>
    if noOverwrite dst k v then filterNoOverwrite dst rest
    else .cons k v (filterNoOverwrite dst rest)

/-- Template._mergeSchemaInto of source lines 304-327. -/
def mergeSchemaInto (dst src : JVal) (dstDeps : JObj) : Except String (JVal × JVal × JObj) :=
  match objField src "properties" with
  | some sprops =>
    if jsTruthy sprops then
      let filtered := filterNoOverwrite dst (objFieldsOf sprops)
      let src1 := setField src "properties" (.obj filtered)
      match objField dst "properties" with
      | some (.obj dfs) =>
        let dst1 := setField dst "properties" (.obj (dfs.assignFrom filtered))
        let sdeps := jsOrEmptyObj (objField src "dependencies")
        let merged := deepmergeWith concatAM (.obj dstDeps) sdeps
        .ok (dst1, src1, dstDeps.assignFrom (objFieldsOf merged))
      | some .null => .error "TypeError: Cannot convert undefined or null to object"
      | some _ =>
        -- Object.assign onto a primitive coerces it to a wrapper; the
        -- assignment lands on the wrapper and is lost.
        let sdeps := jsOrEmptyObj (objField src "dependencies")
        let merged := deepmergeWith concatAM (.obj dstDeps) sdeps
        .ok (dst, src1, dstDeps.assignFrom (objFieldsOf merged))
      | none => .error "TypeError: Cannot convert undefined or null to object"
    else .ok (dst, src, dstDeps)
  | none => .ok (dst, src, dstDeps)

/-- Template._isPropRequired of source lines 329-337: not hidden or info
format, no truthy mathExpression or dataFile, and no default key. -/
def isPropRequired (propDef : JVal) : Bool :=
  !(svzOpt (objField propDef "format") (some (.str "hidden"))) &&
  !(svzOpt (objField propDef "format") (some (.str "info"))) &&
  !(truthyOpt (objField propDef "mathExpression")) &&
  !(truthyOpt (objField propDef "dataFile")) &&
  (objField propDef "default").isNone

/-- The primitives table of source lines 340-349. -/
def primitivesLookup : String → Option JVal
  | "boolean" => some (.boolean (true = false))
  | "object" => some (.obj .nil)
  | "number" => some (.num 0)
  | "string" => some (.str "")
  | "integer" => some (.num 0)
  | "array" => some (.arr .nil)
  | "text" => some (.str "")
  | "hidden" => some (.str "")
  | _ => none

/-! The parsed Mustache tag stream consumed by _handleParsed.  The raw
tokenizer (Mustache.parse) is an external collaborator; a token is a
tagged tuple whose first entries are the type code and the raw name, and
whose fifth entry holds the nested tokens of a section. -/
mutual
inductive Tok where
  | nameT : String → Tok
  | sectT : String → TokList → Tok
  | invT : String → TokList → Tok
  | partT : String → Tok
  | commentT : String → Tok
  | textT : String → Tok
inductive TokList where
  | nil : TokList
  | cons : Tok → TokList → TokList
end

/-- The Template instance state for a template without composition lists
(oneOf, allOf and anyOf stay empty for every tag-based load, and the
modelled pipeline functions below are the combinator-free paths).
Field defaults follow the constructor of source lines 242-262.  The
partial bodies stored in this._partials are consumed only by the
external renderer; a registered name always maps to a truthy (nonempty)
cleaned body, so the registry is modelled by its key set. -/
structure Template where
  title : String := ""
  description : String := ""
  definitions : JObj := .nil
  typeDefinitions : JObj := .nil
  partialNames : List String := []
  explicitDeps : JObj := .nil
  parametersSchema : JVal := .obj .nil
  templateText : String := ""
  defaultParameters : JVal := .obj .nil
  sourceType : String := "UNKNOWN"
  sourceText : String := ""
  sourceHash : String := ""
  contentType : String := "text/plain"

/-- The four instance fields the token walk of _handleParsed reads and
mutates (this.definitions, this._typeDefinitions, this._partials,
this._explicitDeps); every other Template field is untouched by it, so
the walk threads exactly this sub-state. -/
structure InferState where
  definitions : JObj := .nil
  typeDefinitions : JObj := .nil
  partialNames : List String := []
  explicitDeps : JObj := .nil

def defNameOf (mstName : String) : String := (splitColon mstName).headD ""

def schemaNameOf (mstName : String) : Option String := (splitColon mstName).get? 1

def typeRawOf (mstName : String) : Option String := (splitColon mstName).get? 2

/-- A missing suffix used as a JS property key prints as "undefined". -/
def typeKeyOf (mstName : String) : String := (typeRawOf mstName).getD "undefined"

def optStrTruthy : Option String → Bool
  | some s => s ≠ ""
  | none => true = false

/-- The shared block of source lines 357-369, run for name, section,
partial and inverted tokens: when a schemaSource suffix is present the
named type schema must exist and define the type, the definition is
folded into this.definitions under the type key (author entry winning),
and every definition of the schema is assigned into
this._typeDefinitions. -/
def preBlock (st : InferState) (typeSchemas : List (String × JVal)) (mstType mstName : String) :
    Except String InferState :=
  let schemaNameOpt := schemaNameOf mstName
  if ¬ optStrTruthy schemaNameOpt then .ok st
  else
    let sn := schemaNameOpt.getD ""
    match assocLookup typeSchemas sn with
    | none => .error s!"Failed to find the specified schema: {sn} ({mstType}, {mstName})"
    | some tsv =>
      let typeKey := typeKeyOf mstName
      match tsv with
      | .null => .error "TypeError: Cannot read properties of null"
      | .obj fs =>
        let defsO := fs.lookup "definitions"
        match defsO with
        | none => .error "TypeError: Cannot read properties of undefined"
        | some .null => .error "TypeError: Cannot read properties of null"
        | some defsV =>
          let schemaDefO := match defsV with
            | .obj dfs => dfs.lookup typeKey
            | _ => none
          if ¬ truthyOpt schemaDefO then .error s!"No definition for {typeKey} in {sn} schema"
          else
            let schemaDef := schemaDefO.getD .null
            let defs1 := st.definitions.set typeKey
              (.obj ((JObj.assignFrom .nil (objFieldsOf schemaDef)).assignFrom
                (objFieldsOfOpt (st.definitions.lookup typeKey))))
            let tds1 := st.typeDefinitions.assignFrom (objFieldsOf defsV)
            .ok { st with definitions := defs1, typeDefinitions := tds1 }
      | _ => .error "TypeError: Cannot read properties of undefined"

def getAccProps (acc : JVal) : Except String JObj :=
  match acc with
  | .obj fs =>
    match fs.lookup "properties" with
    | some (.obj ps) => .ok ps
    | some _ => .error "TypeError: acc.properties is not an object"
    | none => .error "TypeError: Cannot set properties of undefined"
  | _ => .error "TypeError: acc is not an object"

def setProps (acc : JVal) (ps : JObj) : JVal :=
  match acc with
  | .obj fs => .obj (fs.set "properties" (.obj ps))
  | v => v

/-- The mathExpression pull of source lines 419-424: every collected
type definition whose name occurs in the expression text and is not yet
a property is copied in and marked required. -/
def pullMathDeps (mexpStr : String) : JObj → JObj → List String → JObj × List String
  | .nil, props, required => (props, required)
  | .cons key defProp rest, props, required =>
    if ¬ truthyOpt (props.lookup key) ∧ strHas mexpStr key then
      pullMathDeps mexpStr rest
        (props.set key (.obj (JObj.assignFrom .nil (objFieldsOf defProp))))
        (addSet required key)
    else pullMathDeps mexpStr rest props required

/-- The declared type of a variable token: the third suffix component,
an empty or missing suffix defaulting to string (source line 374). -/
def defTypeOf (mstName : String) : String :=
  match typeRawOf mstName with
  | some t => if t = "" then "string" else t
  | none => "string"

/-- The property fragment a variable token produces before the author
definition is merged, source lines 379-403. -/
def nameBaseProp (typeSchemas : List (String × JVal)) (mstName : String) : JVal :=
  let schemaNameOpt := schemaNameOf mstName
  let schemaTruthy := optStrTruthy schemaNameOpt
  let defTypeStr := defTypeOf mstName
  if schemaTruthy then
    -- the preBlock already established that the schema exists
    let sn := schemaNameOpt.getD ""
    let schemaDefO := match assocLookup typeSchemas sn with
      | some tsv =>
        (match objField tsv "definitions" with
         | some (.obj dfs) => dfs.lookup defTypeStr
         | _ => none)
      | none => none
    .obj (JObj.assignFrom .nil (objFieldsOfOpt schemaDefO))
  else if defTypeStr = "text" then
    .obj (.cons "type" (.str "string") (.cons "format" (.str "text") .nil))
  else if defTypeStr = "array" then
    .obj (.cons "type" (.str "array")
      (.cons "items" (.obj (.cons "type" (.str "string") .nil)) .nil))
  else if defTypeStr = "hidden" then
    .obj (.cons "type" (.str "string") (.cons "format" (.str "hidden") .nil))
  else .obj (.cons "type" (.str defTypeStr) .nil)

/-- The property definition at the required check of source line 407:
the token fragment with the author definition assigned on top (source
lines 404-406). -/
def namePropMerged (st : InferState) (typeSchemas : List (String × JVal)) (mstName : String) : JVal :=
  let baseProp := nameBaseProp typeSchemas mstName
  match st.definitions.lookup (defNameOf mstName) with
  | some dv => if jsTruthy dv then .obj ((objFieldsOf baseProp).assignFrom (objFieldsOf dv)) else baseProp
  | none => baseProp

/-- Source lines 411-413: an info-formatted property without a truthy
const receives an empty const. -/
def nameInfoAdjust (p : JVal) : JVal :=
  if svzOpt (objField p "format") (some (.str "info")) ∧ ¬ truthyOpt (objField p "const")
  then setField p "const" (.str "") else p

/-- The mathExpression stage of the name case, source lines 415-425:
when the property carries a truthy mathExpression, default the format to
hidden and pull in every referenced type definition as a new required
property; a non-string expression has no includes method. -/
def nameMathStep (st : InferState) (props1 : JObj) (required1 : List String) (prop3 : JVal) :
    Except String (JObj × List String × JVal) :=
  if truthyOpt (objField prop3 "mathExpression") then
    let prop3h := if ¬ truthyOpt (objField prop3 "format")
      then setField prop3 "format" (.str "hidden") else prop3
    match objField prop3 "mathExpression" with
    | some (.str mexpStr) =>
      let pulled := pullMathDeps mexpStr st.typeDefinitions props1 required1
      .ok (pulled.1, pulled.2, prop3h)
    | _ => .error "TypeError: propDef.mathExpression.includes is not a function"
  else .ok (props1, required1, prop3)

/-- The dataFile stage of the name case, source lines 427-441: default
the format to hidden, resolve the default from the named data blob
(optionally transcoding base64), and drop the dataFile key. -/
def nameDataStep (dataFiles : List (String × String)) (prop4 : JVal) : Except String JVal :=
  if truthyOpt (objField prop4 "dataFile") then
    let p := if ¬ truthyOpt (objField prop4 "format")
      then setField prop4 "format" (.str "hidden") else prop4
    let keyStr := match objField p "dataFile" with
      | some (.str s) => s
      | some other => jsToString other
      | none => ""
    match assocLookup dataFiles keyStr with
    | some content =>
      let p2 :=
        if truthyOpt (objField p "toBase64") then
          setField p "default" (.str ⟨base64Encode (utf8Encode content)⟩)
        else if truthyOpt (objField p "fromBase64") then
          setField p "default" (.str ⟨utf8Decode (base64Decode content)⟩)
        else setField p "default" (.str content)
      .ok (eraseField p2 "dataFile")
    | none =>
      if truthyOpt (objField p "toBase64") ∨ truthyOpt (objField p "fromBase64") then
        .error "TypeError: Buffer.from of undefined"
      else
        -- assigning the undefined blob leaves an observably absent default
        .ok (eraseField (eraseField p "default") "dataFile")
  else .ok prop4

/-- The name-token case of source lines 373-443. -/
def handleNameTok (st : InferState) (typeSchemas : List (String × JVal))
    (dataFiles : List (String × String)) (acc : JVal) (required : List String)
    (mstName : String) : Except String (JVal × List String) :=
  let defName := defNameOf mstName
  let schemaNameOpt := schemaNameOf mstName
  let schemaTruthy := optStrTruthy schemaNameOpt
  let defTypeStr := defTypeOf mstName
  let schemaNameDisp := match schemaNameOpt with
    | none => "undefined"
    | some s => s
  if ¬ schemaTruthy ∧ (primitivesLookup defTypeStr).isNone then
    .error s!"No schema definition for {schemaNameDisp}/{defTypeStr}"
  else
    let baseProp : JVal := nameBaseProp typeSchemas mstName
    match getAccProps acc with
    | .error e => .error e
    | .ok props0 =>
      let props1 := props0.set defName baseProp
      -- source lines 404-406: the author definition wins
      let prop2 := namePropMerged st typeSchemas mstName
      -- source lines 407-410
      let required1 := if isPropRequired prop2 then addSet required defName else required
      let prop3 := nameInfoAdjust prop2
      match nameMathStep st props1 required1 prop3 with
      | .error e => .error e
      | .ok (props2, required2, prop4) =>
        match nameDataStep dataFiles prop4 with
        | .error e => .error e
        | .ok prop5 => .ok (setProps acc (props2.set defName prop5), required2)

def addAllStr (required : List String) : JArr → Except String (List String)
  | .nil => .ok required
  | .cons x rest =>
    match x with
    | .str s => addAllStr (addSet required s) rest
    | _ => .error "unmodelled: non-string entry in a partial required list"

/-- The partial-token case of source lines 444-453: the name must be a
registered partial; its inferred schema (held in this._typeDefinitions
and aliased by the JS merge, hence written back) is merged in, and its
own required names join the required set. -/
def handlePartialTok (st : InferState) (acc : JVal) (required : List String) (deps : JObj)
    (mstName : String) : Except String (InferState × JVal × List String × JObj) :=
  let defName := defNameOf mstName
  if ¬ st.partialNames.contains defName then
    .error s!"{defName} does not reference a known partial"
  else
    match st.typeDefinitions.lookup defName with
    | none => .error "TypeError: Cannot read properties of undefined"
    | some p =>
      match mergeSchemaInto acc p deps with
      | .error e => .error e
      | .ok (acc1, p1, deps1) =>
        let st1 := { st with typeDefinitions := st.typeDefinitions.set defName p1 }
        match objField p1 "required" with
        | some rq =>
          if jsTruthy rq then
            match rq with
            | .arr xs =>
              (match addAllStr required xs with
               | .ok required1 => .ok (st1, acc1, required1, deps1)
               | .error e => .error e)
            | _ => .error "TypeError: partial.required.forEach is not a function"
          else .ok (st1, acc1, required, deps1)
        | none => .ok (st1, acc1, required, deps1)

/-- The item-level required filter of source lines 470-473: keep only
names whose item property has no default; reading a missing property
throws in JS. -/
def filterItemsRequired (it : JVal) : JArr → Except String JArr
  | .nil => .ok .nil
  | .cons x rest =>
    let key := match x with
      | .str s => s
      | other => jsToString other
    match objField it "properties" with
    | some (.obj pfs) =>
      (match pfs.lookup key with
       | some (.obj pf) =>
         (match filterItemsRequired it rest with
          | .ok r => .ok (if (pf.lookup "default").isNone then .cons x r else r)
          | .error e => .error e)
       | some .null => .error "TypeError: Cannot read properties of null"
       | some _ =>
         (match filterItemsRequired it rest with
          | .ok r => .ok (.cons x r)
          | .error e => .error e)
       | none => .error "TypeError: Cannot read properties of undefined")
    | _ => .error "TypeError: Cannot read properties of undefined"

/-- Source lines 456-479 of the section case: derive the section type
from the collected type definition merged under the author definition,
build newDef for the array, object and toggle shapes, and reject any
other section type. -/
def sectionCompute (st : InferState) (accProps : JObj) (defName typeKey : String) (items : JVal) :
    Except String (JVal × JVal × JVal × Bool) :=
  let schemaDef := deepmergeWith concatAM
    (jsOrEmptyObj (st.typeDefinitions.lookup typeKey))
    (jsOrEmptyObj (st.definitions.lookup defName))
  let defTypeJ := jsOrDefault (objField schemaDef "type") (.str "array")
  let existingDef := jsOrEmptyObj (accProps.lookup defName)
  let newDef0 : JVal := .obj (JObj.assignFrom (.cons "type" defTypeJ .nil) (objFieldsOf schemaDef))
  let asBool := jsSVZ defTypeJ (.str "boolean") || jsSVZ defTypeJ (.str "string")
  if jsSVZ defTypeJ (.str "array") then
    let it0 := jsOrDefault (objField newDef0 "items") (.obj .nil)
    let nd1 := setField newDef0 "items" it0
    let nd2 := setField nd1 "skip_xform" (.boolean true)
    let it1 := deepmergeWith concatAM (jsOrV items (.obj .nil)) (jsOrV it0 (.obj .nil))
    let nd3 := setField nd2 "items" it1
    match objField it1 "required" with
    | some rq =>
      if jsTruthy rq then
        match rq with
        | .arr xs =>
          (match filterItemsRequired it1 xs with
           | .ok fl =>
             .ok (defTypeJ, existingDef, setField nd3 "items" (setField it1 "required" (.arr fl)), asBool)
           | .error e => .error e)
        | _ => .error "TypeError: newDef.items.required.filter is not a function"
      else .ok (defTypeJ, existingDef, nd3, asBool)
    | none => .ok (defTypeJ, existingDef, nd3, asBool)
  else if jsSVZ defTypeJ (.str "object") then
    let nd1 : JVal := .obj ((objFieldsOf newDef0).assignFrom (objFieldsOf items))
    .ok (defTypeJ, existingDef, setField nd1 "skip_xform" (.boolean true), asBool)
  else if ¬ asBool then
    let dts := jsToString defTypeJ
    .error s!"unsupported type for section \"{defName}\": {dts}"
  else .ok (defTypeJ, existingDef, newDef0, asBool)

/-- The dependency push of source lines 496-499 (and 552-555). -/
def depsPush (deps : JObj) (item defName : String) : Except String JObj :=
  let deps1 := if ¬ truthyOpt (deps.lookup item) then deps.set item (.arr .nil) else deps
  match deps1.lookup item with
  | some (.arr xs) => .ok (deps1.set item (.arr (xs.append (.cons (.str defName) .nil))))
  | _ => .error "TypeError: dependencies.push is not a function"

def depsPushAll (deps : JObj) (keys : List String) (defName : String) : Except String JObj :=
  match keys with
  | [] => .ok deps
  | k :: rest =>
    match depsPush deps k defName with
    | .ok d => depsPushAll d rest defName
    | .error e => .error e

/-- The required-array dedup of source lines 514-518. -/
def dedupRequiredField (v : JVal) : Except String JVal :=
  match objField v "required" with
  | some rq =>
    if jsTruthy rq then
      match rq with
      | .arr xs => .ok (setField v "required" (.arr (jarrDedup xs)))
      | .str s => .ok (setField v "required" (.arr (strCharsSetArr s)))
      | _ => .error "TypeError: required is not iterable"
    else .ok v
  | none => .ok v

/-- The items.required dedup of source lines 519-523. -/
def dedupItemsRequiredField (v : JVal) : Except String JVal :=
  match objField v "items" with
  | some it =>
    if jsTruthy it then
      match objField it "required" with
      | some rq =>
        if jsTruthy rq then
          match rq with
          | .arr xs => .ok (setField v "items" (setField it "required" (.arr (jarrDedup xs))))
          | .str s => .ok (setField v "items" (setField it "required" (.arr (strCharsSetArr s))))
          | _ => .error "TypeError: required is not iterable"
        else .ok v
      | none => .ok v
    else .ok v
  | none => .ok v

/-- The section-token case of source lines 455-529, taking the already
inferred child schema as items. -/
def handleSectionTok (st : InferState) (acc : JVal) (required : List String) (deps : JObj)
    (defName typeKey : String) (items : JVal) :
    Except String (InferState × JVal × List String × JObj) :=
  match getAccProps acc with
  | .error e => .error e
  | .ok accProps =>
  match sectionCompute st accProps defName typeKey items with
  | .error e => .error e
  | .ok (defTypeJ, existingDef, newDef, asBool) =>
    let exTypeO := objField existingDef "type"
    if truthyOpt exTypeO ∧ ¬ svzOpt exTypeO (some defTypeJ) then
      let dts := jsToString defTypeJ
      let ets := dispOpt exTypeO
      .error s!"attempted to redefine {defName} as {dts} but it was already defined as {ets}"
    else
      let exItemsO := objField existingDef "items"
      let ndItemsO := objField newDef "items"
      let exItemsT := match exItemsO with
        | some ei => objField ei "type"
        | none => none
      let ndItemsT := match ndItemsO with
        | some ni => objField ni "type"
        | none => none
      if truthyOpt exItemsO ∧ truthyOpt ndItemsO ∧ ¬ svzOpt exItemsT ndItemsT then
        let nts := dispOpt ndItemsT
        let ets := dispOpt exItemsT
        .error (s!"attempted to redefine {defName}.items as {nts} but it"
          ++ s!"was already defined as {ets}")
      else
        let pushStep := match objField items "properties" with
          | some (.obj ips) => depsPushAll deps ips.keysList defName
          | _ => .ok deps
        match pushStep with
        | .error e => .error e
        | .ok deps1 =>
          let hoist : Except String (JVal × JObj) :=
            if asBool then
              match mergeSchemaInto acc items deps1 with
              | .ok (a, _, d) => .ok (a, d)
              | .error e => .error e
            else .ok (acc, deps1)
          match hoist with
          | .error e => .error e
          | .ok (acc1, deps2) =>
            match getAccProps acc1 with
            | .error e => .error e
            | .ok accProps1 =>
              let merged := deepmergeWith concatAM existingDef newDef
              match dedupRequiredField merged with
              | .error e => .error e
              | .ok merged1 =>
                match dedupItemsRequiredField merged1 with
                | .error e => .error e
                | .ok merged2 =>
                  let accProps2 := accProps1.set defName merged2
                  let required1 := if isPropRequired merged2 then addSet required defName else required
                  .ok (st, setProps acc1 accProps2, required1, deps2)

/-- The child-property loop of the inverted-section case, source lines
546-561: every child property not already carrying an explicit author
dependency gains a dependency on the toggle and records the toggle in
its invertDependency list (mutating the child schema before it is
merged). -/
def invDepsFold (st : InferState) (defName : String) (deps : JObj) :
    JObj → Except String (JObj × JObj)
  | .nil => .ok (deps, .nil)
  | .cons item iv rest =>
    if truthyOpt (st.explicitDeps.lookup item) then
      match invDepsFold st defName deps rest with
      | .ok (d, r) => .ok (d, .cons item iv r)
      | .error e => .error e
    else
      match depsPush deps item defName with
      | .error e => .error e
      | .ok deps1 =>
        match iv with
        | .obj ivf =>
          let curO := ivf.lookup "invertDependency"
          let ivf1 := if ¬ truthyOpt curO then ivf.set "invertDependency" (.arr .nil) else ivf
          (match ivf1.lookup "invertDependency" with
           | some (.arr xs) =>
             let ivf2 := ivf1.set "invertDependency" (.arr (xs.append (.cons (.str defName) .nil)))
             (match invDepsFold st defName deps1 rest with
              | .ok (d, r) => .ok (d, .cons item (.obj ivf2) r)
              | .error e => .error e)
           | _ => .error "TypeError: invertDependency.push is not a function")
        | _ => .error "TypeError: Cannot create property on a primitive value"

/-- The inverted-section case of source lines 531-570, taking the
already inferred child schema as items. -/
def handleInvTok (st : InferState) (acc : JVal) (required : List String) (deps : JObj)
    (defName typeKey : String) (items : JVal) :
    Except String (InferState × JVal × List String × JObj) :=
  let tdO := st.typeDefinitions.lookup typeKey
  let defO := st.definitions.lookup defName
  -- Object.assign(this._typeDefinitions[type] || {}, this.definitions[defName] || {})
  -- mutates the stored type definition when it is a truthy object
  let baseFields := objFieldsOf (jsOrEmptyObj tdO)
  let addFields := objFieldsOf (jsOrEmptyObj defO)
  let schemaDefFields := baseFields.assignFrom addFields
  let st1 := match tdO with
    | some (.obj _) => { st with typeDefinitions := st.typeDefinitions.set typeKey (.obj schemaDefFields) }
    | _ => st
  match getAccProps acc with
  | .error e => .error e
  | .ok accProps =>
    let accProps1 := if ¬ truthyOpt (accProps.lookup defName)
      then accProps.set defName (.obj (JObj.assignFrom (.cons "type" (.str "boolean") .nil) schemaDefFields))
      else accProps
    let loopStep : Except String (JObj × JVal) :=
      match objField items "properties" with
      | some (.obj ips) =>
        (match invDepsFold st1 defName deps ips with
         | .ok (d, ips1) => .ok (d, setField items "properties" (.obj ips1))
         | .error e => .error e)
      | _ => .ok (deps, items)
    match loopStep with
    | .error e => .error e
    | .ok (deps1, items1) =>
      let required1 := delSet required defName
      let assignStep : Except String JObj :=
        match defO with
        | some dv =>
          if jsTruthy dv then
            match accProps1.lookup defName with
            | some (.obj curf) => .ok (accProps1.set defName (.obj (curf.assignFrom (objFieldsOf dv))))
            | some .null => .error "TypeError: Cannot convert undefined or null to object"
            | some _ => .ok accProps1
            | none => .error "TypeError: Cannot convert undefined or null to object"
          else .ok accProps1
        | none => .ok accProps1
      match assignStep with
      | .error e => .error e
      | .ok accProps2 =>
        match mergeSchemaInto (setProps acc accProps2) items1 deps1 with
        | .error e => .error e
        | .ok (acc2, _, deps2) => .ok (st1, acc2, required1, deps2)

/-- Source lines 596-598: every property value receives propertyOrder
1000 (assigning onto a primitive throws in strict mode). -/
def setOrderAll : JObj → Except String JObj
  | .nil => .ok .nil
  | .cons k v rest =>
    match v with
    | .obj vf =>
      (match setOrderAll rest with
       | .ok r => .ok (.cons k (.obj (vf.set "propertyOrder" (.num 1000))) r)
       | .error e => .error e)
    | _ => .error "TypeError: Cannot create property propertyOrder on a primitive value"

/-- Source lines 599-605: a property named in this.definitions receives
its index as order. -/
def applyDefOrder : JObj → List (Nat × String) → JObj
  | props, [] => props
  | props, (idx, k) :: rest =>
    let props1 := match props.lookup k with
      | some v =>
        if jsTruthy v then
          match v with
          | .obj vf => props.set k (.obj (vf.set "propertyOrder" (.num (Int.ofNat idx))))
          | _ => props
        else props
      | none => props
    applyDefOrder props1 rest

def orderOf (e : JObj) : Int :=
  match e.lookup "propertyOrder" with
  | some (.num n) => n
  | _ => 0

def insertEntry (x : JObj) : List JObj → List JObj
  | [] => [x]
  | y :: ys => if orderOf x < orderOf y then x :: y :: ys else y :: insertEntry x ys

/-- A stable sort by propertyOrder, as the JS engine sort with the
numeric comparator of source line 610. -/
def sortEntries (l : List JObj) : List JObj := l.foldl (fun acc x => insertEntry x acc) []

def propsEntries : JObj → List JObj
  | .nil => []
  | .cons k v rest =>
    JObj.assignFrom (.cons "name" (.str k) .nil) (objFieldsOf v) :: propsEntries rest

def rebuildProps (entries : List JObj) : JObj :=
  entries.foldl (fun ps e =>
    let nm := match e.lookup "name" with
      | some (.str s) => s
      | some other => jsToString other
      | none => "undefined"
    ps.set nm (.obj ((e.erase "name").erase "propertyOrder"))) .nil

/-- Source lines 624-626: each dependency list is deduplicated through a
JS Set (a string value being iterable yields its characters; an object
value is not iterable and throws). -/
def dedupDepsVals : JObj → Except String JObj
  | .nil => .ok .nil
  | .cons k v rest =>
    let step : Except String JVal := match v with
      | .arr xs => .ok (.arr (jarrDedup xs))
      | .str s => .ok (.arr (strCharsSetArr s))
      | _ => .error "TypeError: value is not iterable"
    match step with
    | .error e => .error e
    | .ok v1 =>
      match dedupDepsVals rest with
      | .ok r => .ok (.cons k v1 r)
      | .error e => .error e

/-- The post-reduction normalization of _handleParsed, source lines
584-634: collapse to a bare string schema when no property (or only the
dot placeholder) was produced, assign and apply propertyOrder, re-sort,
strip required names from dependencies, deduplicate them, and attach
required and dependencies. -/
def postReduce (st : InferState) (acc : JVal) (required : List String) (deps : JObj) :
    Except String JVal :=
  match getAccProps acc with
  | .error e => .error e
  | .ok props =>
    if truthyOpt (props.lookup ".") ∧ props.size = 1 then
      .ok (.obj (.cons "type" (.str "string") .nil))
    else if props.size < 1 then
      .ok (.obj (.cons "type" (.str "string") .nil))
    else
      match setOrderAll props with
      | .error e => .error e
      | .ok props1 =>
        let props2 := applyDefOrder props1 st.definitions.keysList.enum
        let sorted := sortEntries (propsEntries props2)
        let props3 := rebuildProps sorted
        let deps1 := required.foldl (fun d v => d.erase v) deps
        match dedupDepsVals deps1 with
        | .error e => .error e
        | .ok deps2 =>
          let schema1 := setField (setProps acc props3) "required"
            (.arr (jarrOfList (required.map JVal.str)))
          let schema2 :=
            if deps2.size > 0 ∨ st.explicitDeps.size > 0 then
              setField schema1 "dependencies" (.obj (deps2.assignFrom st.explicitDeps))
            else schema1
          .ok schema2

/-- The accumulator seed of the reduce, source lines 580-583. -/
def freshAcc : JVal :=
  .obj (.cons "type" (.str "object") (.cons "properties" (.obj .nil) .nil))

/-- The token walk of Template._handleParsed (the reduce of source lines
353-579), threading the instance state the JS code mutates.  A section
or inverted section first runs the full _handleParsed on its children
(the recursive call of lines 456 and 532, including post-reduction). -/
def handleTokensGo (typeSchemas : List (String × JVal)) (dataFiles : List (String × String)) :
    InferState → TokList → JVal → List String → JObj →
    Except String (InferState × JVal × List String × JObj)
  | st, .nil, acc, required, deps => .ok (st, acc, required, deps)
  | st, .cons tk rest, acc, required, deps =>
    let step : Except String (InferState × JVal × List String × JObj) :=
      match tk with
      | .commentT _ => .ok (st, acc, required, deps)
      | .textT _ => .ok (st, acc, required, deps)
      | .nameT mstName =>
        (match preBlock st typeSchemas "name" mstName with
         | .error e => .error e
         | .ok st1 =>
           match handleNameTok st1 typeSchemas dataFiles acc required mstName with
           | .error e => .error e
           | .ok (acc1, required1) => .ok (st1, acc1, required1, deps))
      | .partT mstName =>
        (match preBlock st typeSchemas ">" mstName with
         | .error e => .error e
         | .ok st1 => handlePartialTok st1 acc required deps mstName)
      | .sectT mstName children =>
        (match preBlock st typeSchemas "#" mstName with
         | .error e => .error e
         | .ok st1 =>
           match handleTokensGo typeSchemas dataFiles st1 children freshAcc [] .nil with
           | .error e => .error e
           | .ok (st2, cacc, creq, cdeps) =>
             match postReduce st2 cacc creq cdeps with
             | .error e => .error e
             | .ok items =>
               handleSectionTok st2 acc required deps (defNameOf mstName) (typeKeyOf mstName) items)
      | .invT mstName children =>
        (match preBlock st typeSchemas "^" mstName with
         | .error e => .error e
         | .ok st1 =>
           match handleTokensGo typeSchemas dataFiles st1 children freshAcc [] .nil with
           | .error e => .error e
           | .ok (st2, cacc, creq, cdeps) =>
             match postReduce st2 cacc creq cdeps with
             | .error e => .error e
             | .ok items =>
               handleInvTok st2 acc required deps (defNameOf mstName) (typeKeyOf mstName) items)
    match step with
    | .error e => .error e
    | .ok (st1, acc1, required1, deps1) =>
      handleTokensGo typeSchemas dataFiles st1 rest acc1 required1 deps1

/-- Template._handleParsed of source lines 339-635 on a token stream:
the reduce over the tokens followed by the post-reduction
normalization, returning the possibly mutated instance state with the
inferred schema. -/
def handleParsed (typeSchemas : List (String × JVal)) (dataFiles : List (String × String))
    (st : InferState) (toks : TokList) : Except String (InferState × JVal) :=
  match handleTokensGo typeSchemas dataFiles st toks freshAcc [] .nil with
  | .error e => .error e
  | .ok (st1, acc, required, deps) =>
    match postReduce st1 acc required deps with
    | .error e => .error e
    | .ok schema => .ok (st1, schema)

def replaceFirstAux (pat : List Char) : List Char → List Char
  | [] => []
  | c :: cs => if listLead pat (c :: cs) then (c :: cs).drop pat.length else c :: replaceFirstAux pat cs

/-- The cleanRef helper of source line 38: drop the first occurrence of
the definitions prefix. -/
def cleanRef (s : String) : String := ⟨replaceFirstAux "#/definitions/".data s.data⟩

/-- A truthy string $ref contributes its cleaned name (a truthy
non-string $ref would throw in JS and is never produced). -/
def refOwnOf : Option JVal → List String
  | some (.str r) => if r ≠ "" then [cleanRef r] else []
  | _ => []

def refOwnOfVal (v : JVal) : List String := refOwnOf (objField v "$ref")

/-! getRefDefs of source lines 36-65: collect every definition name a
schema tree references, from its own $ref, each property ($ref, items,
recursive), and each oneOf, allOf, anyOf branch. -/
mutual
def getRefDefs : JVal → List String
  | .obj fs =>
    refOwnOf (fs.lookup "$ref") ++ propsScan fs
      ++ scanXOf "oneOf" fs ++ scanXOf "allOf" fs ++ scanXOf "anyOf" fs
  | _ => []
def propsScan : JObj → List String
  | .nil => []
  | .cons k v rest =>
    (if k = "properties" then
      match v with
      | .obj pfs => perProps pfs
      | _ => []
     else []) ++ propsScan rest
def perProps : JObj → List String
  | .nil => []
  | .cons _ v rest => refOwnOfVal v ++ scanItems v ++ getRefDefs v ++ perProps rest
def scanItems : JVal → List String
  | .obj vfs => scanItemsFields vfs
  | _ => []
def scanItemsFields : JObj → List String
  | .nil => []
  | .cons k iv rest => (if k = "items" ∧ jsTruthy iv then getRefDefs iv else []) ++ scanItemsFields rest
def scanXOf (key : String) : JObj → List String
  | .nil => []
  | .cons k v rest =>
    (if k = key then
      match v with
      | .arr xs => arrRefs xs
      | _ => []
     else []) ++ scanXOf key rest
def arrRefs : JArr → List String
  | .nil => []
  | .cons v rest => getRefDefs v ++ arrRefs rest
end

/-- getParametersSchema of source lines 994-1009 for a template whose
composition lists are empty: the parameters schema with title,
description and definitions assigned on top, and no combinator keys. -/
def getParametersSchema (t : Template) : JVal :=
  .obj ((JObj.assignFrom .nil (objFieldsOf t.parametersSchema)).assignFrom
    (.cons "title" (.str t.title) (.cons "description" (.str t.description)
      (.cons "definitions" (.obj t.definitions) .nil))))

/-- Source lines 648-653: capture a truthy dependencies key of each raw
definition as an explicit dependency and delete the key. -/
def extractExplicitDeps : JObj → JObj × JObj
  | .nil => (.nil, .nil)
  | .cons prop dv rest =>
    let r := extractExplicitDeps rest
    match dv with
    | .obj dfs =>
      let depO := dfs.lookup "dependencies"
      let dv1 : JVal := .obj (dfs.erase "dependencies")
      if truthyOpt depO then
        (.cons prop (depO.getD .null) r.1, .cons prop dv1 r.2)
      else (r.1, .cons prop dv1 r.2)
    | _ => (r.1, .cons prop dv r.2)

/-- Source lines 654-663: each definition with an embedded template body
is compiled through _handleParsed into a named type definition and
registered as a partial; other definitions are deep-copied through. -/
def compileDefsLoop (parse : String → TokList) (typeSchemas : List (String × JVal))
    (dataFiles : List (String × String)) : InferState → JObj → Except String InferState
  | st, .nil => .ok st
  | st, .cons name dv rest =>
    let tmplO := match dv with
      | .obj dfs => dfs.lookup "template"
      | _ => none
    if truthyOpt tmplO then
      match tmplO with
      | some (.str tmplText) =>
        (match handleParsed typeSchemas dataFiles st (parse tmplText) with
         | .error e => .error e
         | .ok (st1, newDef) =>
           let newDef1 := eraseField newDef "template"
           let st2 := { st1 with
             typeDefinitions := st1.typeDefinitions.set name newDef1,
             partialNames := addSet st1.partialNames name }
           compileDefsLoop parse typeSchemas dataFiles st2 rest)
      | _ => .error "TypeError: Mustache.parse expects a string template"
    else
      -- JSON.parse(JSON.stringify(def)) is the identity on value trees
      compileDefsLoop parse typeSchemas dataFiles
        { st with typeDefinitions := st.typeDefinitions.set name dv } rest

/-- Source lines 666-674: a collapsed bare string schema with no
properties becomes an empty object schema. -/
def fixEmptySchema (schema : JVal) : JVal :=
  let schema1 :=
    if svzOpt (objField schema "type") (some (.str "string")) ∧
        ¬ truthyOpt (objField schema "properties")
    then setField schema "type" (.str "object") else schema
  if ¬ truthyOpt (objField schema1 "properties")
  then setField schema1 "properties" (.obj .nil) else schema1

def filterDefsByRef (refs : List String) : JObj → JObj
  | .nil => .nil
  | .cons k v rest =>
    if refs.contains k then .cons k v (filterDefsByRef refs rest)
    else filterDefsByRef refs rest

/-- The definition-preparation phase of _parametersSchemaFromTemplate,
source lines 638-663 for empty composition lists: the deepmerge.all
fold over the (single) own definitions map, the explicit-dependency
extraction, and the per-definition compile loop. -/
def defsPhase (parse : String → TokList) (typeSchemas : List (String × JVal))
    (dataFiles : List (String × String)) (st : Template) : Except String InferState :=
  let defs1 := objFieldsOf (deepmergeAll arrayMergeOverwrite [.obj st.definitions])
  let ex := extractExplicitDeps defs1
  let ist1 : InferState :=
    { definitions := ex.2
      typeDefinitions := st.typeDefinitions
      partialNames := st.partialNames
      explicitDeps := st.explicitDeps.assignFrom ex.1 }
  compileDefsLoop parse typeSchemas dataFiles ist1 ex.2

/-- Template._parametersSchemaFromTemplate of source lines 637-717 for a
template with empty composition lists: the definition phase, root
inference, the empty-schema fix, and the final definition collapse and
pruning.  With empty composition lists the keyInXOf helper of lines
678-695 is identically false, so the override loop of lines 696-701
adds nothing and is omitted. -/
def parametersSchemaFromTemplate (parse : String → TokList)
    (typeSchemas : List (String × JVal)) (dataFiles : List (String × String))
    (st : Template) : Except String Template :=
  match defsPhase parse typeSchemas dataFiles st with
  | .error e => .error e
  | .ok ist2 =>
    match handleParsed typeSchemas dataFiles ist2 (parse st.templateText) with
    | .error e => .error e
    | .ok (ist3, rootSchema) =>
      let fixed := fixEmptySchema rootSchema
      -- lines 703-707: definitions collapse to the collected type
      -- definitions; the scratch maps are deleted
      let t4 := { st with
        parametersSchema := fixed,
        definitions := ist3.typeDefinitions,
        typeDefinitions := .nil,
        explicitDeps := .nil,
        partialNames := ist3.partialNames }
      -- lines 709-716: prune definitions unreachable by $ref scanning
      let refs := getRefDefs (getParametersSchema t4)
      .ok { t4 with definitions := filterDefsByRef refs t4.definitions }

/-- Template._recordSource of source lines 719-726: the provenance
fields, the hash being the SHA-256 hex digest of the source text. -/
def recordSource (t : Template) (sourceType sourceText : String) : Template :=
  { t with
    sourceType := sourceType,
    sourceText := sourceText,
    sourceHash := sha256Hex sourceText }

def firstComment : TokList → Option String
  | .nil => none
  | .cons (.commentT c) _ => some c
  | .cons _ rest => firstComment rest

/-- Template._descriptionFromTemplate of source lines 296-302: the first
comment token of the parsed template text becomes the description. -/
def descriptionFromTemplate (t : Template) (toks : TokList) : Template :=
  match firstComment toks with
  | some c => { t with description := c }
  | none => t

/-- Template.loadMst of source lines 763-781: meta-schema validation (an
external ajv check, abstracted to a predicate), source recording, body
assignment, description extraction and schema inference.  The final
validator compilation delegates entirely to the external ajv engine and
is not modelled; its failure would reject the returned promise without
touching the fields below. -/
def loadMst (parse : String → TokList) (typeSchemas : List (String × JVal))
    (dataFiles : List (String × String)) (metaValid : String → Bool)
    (msttext : String) : Except String Template :=
  if ¬ metaValid msttext then .error "template failed meta-schema validation"
  else
    let t1 := recordSource {} "MST" msttext
    let t2 := { t1 with templateText := msttext }
    let t3 := descriptionFromTemplate t2 (parse msttext)
    parametersSchemaFromTemplate parse typeSchemas dataFiles t3

/-! Combined parameters, source lines 1016-1068. -/

def JObj.toPairs : JObj → List (String × JVal)
  | .nil => []
  | .cons k v rest => (k, v) :: rest.toPairs

/-- Source lines 1019-1025: the type-implied defaults are the property
defaults present in the schema (a present null default counts). -/
def collectDefaults : JObj → JObj
  | .nil => .nil
  | .cons k v rest =>
    match objField v "default" with
    | some d => .cons k d (collectDefaults rest)
    | none => collectDefaults rest

def insertPairLen (x : String × JVal) : List (String × JVal) → List (String × JVal)
  | [] => [x]
  | y :: ys => if x.1.length < y.1.length then x :: y :: ys else y :: insertPairLen x ys

/-- Source lines 1043-1048: keys sorted shortest first (stable), working
around a tokenizer bug of the math-expression library. -/
def sortPairsByLen (l : List (String × JVal)) : List (String × JVal) :=
  l.foldl (fun acc x => insertPairLen x acc) []

/-- Source lines 1055-1065: evaluate every property with a truthy
mathExpression through the external evaluator (abstracted as mexpEval
over the folded bindings) and coerce to text for string-typed
properties. -/
def mathResults (mexpEval : String → List (String × JVal) → JVal)
    (pairs : List (String × JVal)) : JObj → JObj
  | .nil => .nil
  | .cons k v rest =>
    let mO := objField v "mathExpression"
    if truthyOpt mO then
      let exprStr := match mO with
        | some (.str s) => s
        | some other => jsToString other
        | none => ""
      let r := mexpEval exprStr pairs
      let r1 := if svzOpt (objField v "type") (some (.str "string")) then JVal.str (jsToString r) else r
      .cons k r1 (mathResults mexpEval pairs rest)
    else mathResults mexpEval pairs rest

/-- Template.getCombinedParameters of source lines 1016-1068 for a
template with empty composition lists: a missing or falsy parameters
argument is replaced by an empty object, the type-implied defaults,
author defaults and caller parameters are folded with wholesale array
replacement, and math-expression results are spliced in. -/
def getCombinedParameters (mexpEval : String → List (String × JVal) → JVal)
    (t : Template) (parameters : Option JVal) : JVal :=
  let params := jsOrEmptyObj parameters
  let typePropsO := objField (getParametersSchema t) "properties"
  let typeDefaults : JVal := match typePropsO with
    | some (.obj tpf) => .obj (collectDefaults tpf)
    | _ => .obj .nil
  let defaults := deepmergeAll arrayMergeOverwrite [typeDefaults, t.defaultParameters, params]
  let pairs := sortPairsByLen (objFieldsOf defaults).toPairs
  let mResults := match typePropsO with
    | some (.obj tpf) => mathResults mexpEval pairs tpf
    | _ => .nil
  .obj ((objFieldsOf defaults).assignFrom mResults)

def jsonEscapeChar (c : Char) : List Char :=
  if c = '"' then ['\\', '"']
  else if c = '\\' then ['\\', '\\']
  else if c = '\n' then ['\\', 'n']
  else if c = '\t' then ['\\', 't']
  else if c = '\r' then ['\\', 'r']
  else [c]

/-! JSON.stringify at the value level (the two-space indentation of the
source output is not reproduced; only the content matters to the
modelled uses, which test substrings of error messages). -/
mutual
def jsonStringify : JVal → String
  | .null => "null"
  | .boolean true => "true"
  | .boolean false => "false"
  | .num n => intDecimal n
  | .str s => "\"" ++ ⟨s.data.flatMap jsonEscapeChar⟩ ++ "\""
  | .arr xs => "[" ++ jsonStringifyArr xs ++ "]"
  | .obj fs => "\x7b" ++ jsonStringifyObj fs ++ "\x7d"
def jsonStringifyArr : JArr → String
  | .nil => ""
  | .cons x .nil => jsonStringify x
  | .cons x rest => jsonStringify x ++ "," ++ jsonStringifyArr rest
def jsonStringifyObj : JObj → String
  | .nil => ""
  | .cons k v .nil => "\"" ++ k ++ "\":" ++ jsonStringify v
  | .cons k v rest => "\"" ++ k ++ "\":" ++ jsonStringify v ++ "," ++ jsonStringifyObj rest
end

/-- Template.validateParameters of source lines 1075-1085: the combined
parameters run through the compiled ajv validator (abstracted as a
predicate returning the structured error dump on failure); a failure
raises the descriptive Parameters failed validation error. -/
def validateParameters (mexpEval : String → List (String × JVal) → JVal)
    (validator : JVal → Option String) (t : Template) (parameters : Option JVal) :
    Except String Unit :=
  let combParams := getCombinedParameters mexpEval t parameters
  match validator combParams with
  | none => .ok ()
  | some errs =>
    let pdump := match parameters with
      | some p => jsonStringify p
      | none => "undefined"
    .error ("Parameters failed validation:\n" ++ pdump ++ "\n\nValidation error:\n" ++ errs)

/-! Merge strategies, source lines 154-191.  The yaml.load parse and the
JSON.stringify / yaml.dump serialization around each merge delegate to
external libraries; the merge itself is the deepmerge call with default
options (no arrayMerge override is passed). -/

/-- The structured core of JsonMergeStrategy, source lines 164-169. -/
def JsonMergeStrategyData (accData currData : JVal) : JVal :=
  deepmergeWith concatAM accData currData

/-- The structured core of YamlMergeStrategy, source lines 174-179. -/
def YamlMergeStrategyData (accData currData : JVal) : JVal :=
  deepmergeWith concatAM accData currData

/-- JsonMergeStrategy on fragment texts, with the external yaml.load
parse passed in. -/
def JsonMergeStrategy (load : String → JVal) (acc curr : String) : String :=
  jsonStringify (JsonMergeStrategyData (load acc) (load curr))

/-- YamlMergeStrategy on fragment texts, with the external yaml.load
parse and yaml.dump serializer passed in. -/
def YamlMergeStrategy (load : String → JVal) (dump : JVal → String) (acc curr : String) : String :=
  dump (YamlMergeStrategyData (load acc) (load curr))

/-- PlainTextMergeStrategy of source lines 157-159. -/
def PlainTextMergeStrategy (acc curr : String) : String := acc ++ "\n" ++ curr

/-! The render pipeline fragment collection, source lines 1118-1168. -/

/-- The regex test of source lines 1140 and 1149. -/
def matchFailedValidation (msg : String) : Bool := strHas msg "failed validation"

/-- The allOf loop of source lines 1133-1135: every sub-render error
propagates out of the forEach immediately. -/
def pushAll : List (Except String String) → List String → Except String (List String)
  | [], acc => .ok acc
  | .ok s :: rest, acc => pushAll rest (acc ++ [s])
  | .error e :: _, _ => .error e

/-- The anyOf and oneOf loops of source lines 1136-1153: an error whose
message matches the failed-validation pattern is swallowed and the
branch skipped; any other error is re-thrown. -/
def pushCatch : List (Except String String) → List String → Except String (List String)
  | [], acc => .ok acc
  | .ok s :: rest, acc => pushCatch rest (acc ++ [s])
  | .error e :: rest, acc =>
    if matchFailedValidation e then pushCatch rest acc else .error e

/-- The fragment collection of Template.render, source lines 1127-1155:
allOf renders, then anyOf, then oneOf, then the root render, each
sub-render outcome supplied by the caller. -/
def renderFragments (allOf anyOf oneOf : List (Except String String))
    (root : Except String String) : Except String (List String) :=
  match pushAll allOf [] with
  | .error e => .error e
  | .ok a1 =>
    match pushCatch anyOf a1 with
    | .error e => .error e
    | .ok a2 =>
      match pushCatch oneOf a2 with
      | .error e => .error e
      | .ok a3 =>
        match root with
        | .ok s => .ok (a3 ++ [s])
        | .error e => .error e

/-- The merge reduce of source lines 1157-1168: empty fragments are
skipped, the rest fold through the content-type merge strategy. -/
def mergeFragments (mergeStrategy : String → String → String) : List String → String
  | [] => ""
  | t :: rest =>
    rest.foldl (fun acc curr =>
      if curr.length = 0 then acc
      else if acc.length = 0 then curr
      else mergeStrategy acc curr) t

/-- Template.render of source lines 1118-1176 at the fragment level:
optional validation, fragment collection with the error policy, the
merge fold, and the optional post-processing. -/
def renderModel (validation : Except String Unit)
    (mergeStrategy : String → String → String)
    (postProcess : Option (String → String))
    (allOf anyOf oneOf : List (Except String String))
    (root : Except String String) : Except String String :=
  match validation with
  | .error e => .error e
  | .ok () =>
    match renderFragments allOf anyOf oneOf root with
    | .error e => .error e
    | .ok texts =>
      let rendered := mergeFragments mergeStrategy texts
      .ok (match postProcess with
        | some f => f rendered
        | none => rendered)

/-! The loadYaml reference phase, source lines 843-901. -/

def normalizeSegsAux (stack : List String) : List String → List String
  | [] => stack.reverse
  | "" :: rest => normalizeSegsAux stack rest
  | "." :: rest => normalizeSegsAux stack rest
  | ".." :: rest =>
    (match stack with
     | [] => normalizeSegsAux [] rest
     | _ :: tl => normalizeSegsAux tl rest)
  | seg :: rest => normalizeSegsAux (seg :: stack) rest

def pathSegs (p : String) : List String :=
  normalizeSegsAux [] ((splitCharsAux '/' [] p.data).map (fun cs => ⟨cs⟩))

def dropCommon : List String → List String → List String × List String
  | x :: xs, y :: ys => if x = y then dropCommon xs ys else (x :: xs, y :: ys)
  | xs, ys => (xs, ys)

def joinSegs : List String → String
  | [] => ""
  | [s] => s
  | s :: rest => s ++ "/" ++ joinSegs rest

/-- Node path.relative for absolute posix paths (the resolver returns
absolute reference paths): normalize both, drop the common leading
segments, climb with dot-dot and descend into the target. -/
def pathRelative (fromP toP : String) : String :=
  let r := dropCommon (pathSegs fromP) (pathSegs toP)
  joinSegs (List.replicate r.1.length ".." ++ r.2)

/-- The traversal check of source lines 889-897: every resolved
reference whose relative path from the root starts with dot-dot aborts
the load. -/
def checkRefs (rootDir : String) : List String → Except String Unit
  | [] => .ok ()
  | ref :: rest =>
    if strLeads (pathRelative rootDir ref) ".." then
      .error s!"Found ref to path outside of the template set: {ref}"
    else checkRefs rootDir rest

/-- The reference phase of Template.loadYaml, source lines 880-901:
references are resolved (via the external parser) only when a root
directory is given and no template provider overrides file resolution;
the traversal check runs on them, and only then is the bundle attempted
(its outcome supplied by the external parser).  Both failure kinds are
wrapped in the Parsing references failed error.  The returned Bool
records whether bundling was attempted. -/
def loadYamlRefPhase (rootDir : String) (hasTemplateProvider : Bool)
    (resolvedRefs : List String) (bundleResult : Except String Unit) :
    Bool × Except String Unit :=
  let refs := if rootDir ≠ "" ∧ ¬ hasTemplateProvider then resolvedRefs else []
  match checkRefs rootDir refs with
  | .error e => (true = false, .error ("Parsing references failed:\n" ++ e))
  | .ok () =>
    match bundleResult with
    | .error e => (true, .error ("Parsing references failed:\n" ++ e))
    | .ok () => (true, .ok ())

/-- Template.loadYaml at the phase level: the reference phase guards
everything after it (sub-template loads, inference, validator
compilation, all supplied as the remainder outcome); a reference-phase
failure rejects the whole load and no template value is produced. -/
def loadYamlModel (rootDir : String) (hasTemplateProvider : Bool)
    (resolvedRefs : List String) (bundleResult : Except String Unit)
    (restOfLoad : Except String Template) : Bool × Except String Template :=
  let phase := loadYamlRefPhase rootDir hasTemplateProvider resolvedRefs bundleResult
  match phase.2 with
  | .error e => (phase.1, .error e)
  | .ok () => (phase.1, restOfLoad)

/-! The escaping override and the interpolation it governs. -/

/-- Source lines 225-228: Mustache.escape is globally replaced by a
function returning its argument unchanged, disabling HTML escaping. -/
def mustacheEscape (text : String) : String := text

/-- The external Mustache renderer modelled at the interpolation level:
a variable token emits the escaped looked-up value, literal text passes
through (section handling is irrelevant to the escaping claim). -/
def mustacheRenderToks (escape : String → String) (view : List (String × String)) :
    TokList → String
  | .nil => ""
  | .cons (.textT s) rest => s ++ mustacheRenderToks escape view rest
  | .cons (.nameT n) rest => escape ((assocLookup view n).getD "") ++ mustacheRenderToks escape view rest
  | .cons _ rest => mustacheRenderToks escape view rest

/-- The root render of source line 1155: the renderer runs with the
globally overridden escape function. -/
def renderRootFragment (view : List (String × String)) (toks : TokList) : String :=
  mustacheRenderToks mustacheEscape view toks

/-! Shared lemmas about the object operations.  JObj is part of a
mutual inductive family, so a single-motive induction principle is
derived first. -/

theorem jobjInd {P : JObj → Prop} (hnil : P .nil)
    (hcons : ∀ k v rest, P rest → P (.cons k v rest)) : ∀ o, P o
  | .nil => hnil
  | .cons k v rest => hcons k v rest (jobjInd hnil hcons rest)

theorem lookup_set_ne (o : JObj) (k k2 : String) (v : JVal) (h : k2 ≠ k) :
    (o.set k2 v).lookup k = o.lookup k := by
  induction o using jobjInd with
  | hnil => simp [JObj.set, JObj.lookup, h]
  | hcons k3 v3 rest ih =>
    by_cases h3 : k3 = k2
    · subst h3
      simp [JObj.set, JObj.lookup, h]
    · simp [JObj.set, JObj.lookup, h3, ih]

theorem lookup_set_eq (o : JObj) (k : String) (v : JVal) :
    (o.set k v).lookup k = some v := by
  induction o using jobjInd with
  | hnil => simp [JObj.set, JObj.lookup]
  | hcons k3 v3 rest ih =>
    by_cases h3 : k3 = k
    · subst h3
      simp [JObj.set, JObj.lookup]
    · simp [JObj.set, JObj.lookup, h3, ih]

theorem lookup_assignFrom_none (dst add : JObj) (k : String) (h : add.lookup k = none) :
    (dst.assignFrom add).lookup k = dst.lookup k := by
  induction add using jobjInd generalizing dst with
  | hnil => simp [JObj.assignFrom]
  | hcons k2 v2 rest ih =>
    simp only [JObj.lookup] at h
    by_cases h2 : k2 = k
    · simp [h2] at h
    · simp only [h2, if_false] at h
      simp only [JObj.assignFrom]
      rw [ih _ h, lookup_set_ne _ _ _ _ h2]

theorem lookup_none_of_not_mem (fs : JObj) (k : String) (h : k ∉ fs.keysList) :
    fs.lookup k = none := by
  induction fs using jobjInd with
  | hnil => rfl
  | hcons k2 v2 rest ih =>
    simp only [JObj.keysList, List.mem_cons, not_or] at h
    simp only [JObj.lookup]
    rw [if_neg (Ne.symm h.1), ih h.2]

theorem filterNoOverwrite_lookup_none (dst : JVal) (fs : JObj) (k : String)
    (h : fs.lookup k = none) : (filterNoOverwrite dst fs).lookup k = none := by
  induction fs using jobjInd with
  | hnil => rfl
  | hcons k2 v2 rest ih =>
    simp only [JObj.lookup] at h
    by_cases h2 : k2 = k
    · simp [h2] at h
    · simp only [h2, if_false] at h
      simp only [filterNoOverwrite]
      by_cases hno : noOverwrite dst k2 v2 = true
      · simp only [hno, if_true]
        exact ih h
      · simp only [hno, if_false, JObj.lookup, h2]
        exact ih h

theorem filterNoOverwrite_drop (dst : JVal) (fs : JObj) (k : String) (w : JVal)
    (hnodup : fs.keysList.Nodup) (hw : fs.lookup k = some w)
    (hno : noOverwrite dst k w = true) :
    (filterNoOverwrite dst fs).lookup k = none := by
  induction fs using jobjInd with
  | hnil => simp [JObj.lookup] at hw
  | hcons k2 v2 rest ih =>
    simp only [JObj.keysList, List.nodup_cons] at hnodup
    simp only [JObj.lookup] at hw
    by_cases h2 : k2 = k
    · subst h2
      simp at hw
      subst hw
      simp only [filterNoOverwrite, hno, if_true]
      exact filterNoOverwrite_lookup_none _ _ _ (lookup_none_of_not_mem _ _ hnodup.1)
    · simp only [h2, if_false] at hw
      simp only [filterNoOverwrite]
      by_cases hno2 : noOverwrite dst k2 v2 = true
      · simp only [hno2, if_true]
        exact ih hnodup.2 hw
      · simp only [hno2, if_false, JObj.lookup, h2]
        exact ih hnodup.2 hw

theorem objField_isObj {v : JVal} {k : String} {x : JVal} (h : objField v k = some x) :
    ∃ fs, v = .obj fs := by
  cases v with
  | obj fs => exact ⟨fs, rfl⟩
  | null => simp [objField] at h
  | boolean b => simp [objField] at h
  | num n => simp [objField] at h
  | str s => simp [objField] at h
  | arr xs => simp [objField] at h

theorem noOverwrite_true (dst : JVal) (dfs : JObj) (prop : String) (dv w : JVal) (t : String)
    (hd : objField dst "properties" = some (.obj dfs))
    (hdv : dfs.lookup prop = some dv)
    (ht : objField dv "type" = some (.str t))
    (htas : t = "array" ∨ t = "string")
    (hwt : objField w "type" = some (.str "boolean")) :
    noOverwrite dst prop w = true := by
  obtain ⟨dstf, rfl⟩ := objField_isObj hd
  obtain ⟨dvf, rfl⟩ := objField_isObj ht
  obtain ⟨wf, rfl⟩ := objField_isObj hwt
  simp only [objField] at hd ht hwt
  rcases htas with h | h <;> subst h <;>
    simp [noOverwrite, objField, hd, hdv, ht, hwt, truthyOpt, jsTruthy, svzOpt, jsSVZ]

/-- C2: for every merge of a source schema into a destination (the
partial, hoisted-section and inverted-section merges all go through
Template._mergeSchemaInto), a destination property of declared type
array or string is never overwritten by a boolean-typed source
property: the filter of source lines 308-319 drops that source entry,
so the destination keeps its exact original definition. -/
theorem c2_merge_never_narrows_to_boolean
    (dst src : JVal) (deps dfs sfs : JObj) (prop : String) (dv w : JVal) (t : String)
    (hd : objField dst "properties" = some (.obj dfs))
    (hdv : dfs.lookup prop = some dv)
    (ht : objField dv "type" = some (.str t))
    (htas : t = "array" ∨ t = "string")
    (hs : objField src "properties" = some (.obj sfs))
    (hnodup : sfs.keysList.Nodup)
    (hw : sfs.lookup prop = some w)
    (hwt : objField w "type" = some (.str "boolean")) :
    ∃ src1 deps1,
      mergeSchemaInto dst src deps
        = .ok (setField dst "properties" (.obj (dfs.assignFrom (filterNoOverwrite dst sfs))),
            src1, deps1)
      ∧ (dfs.assignFrom (filterNoOverwrite dst sfs)).lookup prop = some dv := by
  have hno : noOverwrite dst prop w = true := noOverwrite_true dst dfs prop dv w t hd hdv ht htas hwt
  have hfilter : (filterNoOverwrite dst sfs).lookup prop = none :=
    filterNoOverwrite_drop dst sfs prop w hnodup hw hno
  have hrun : mergeSchemaInto dst src deps = .ok
      (setField dst "properties" (.obj (dfs.assignFrom (filterNoOverwrite dst sfs))),
       setField src "properties" (.obj (filterNoOverwrite dst sfs)),
       deps.assignFrom (objFieldsOf (deepmergeWith concatAM (.obj deps)
         (jsOrEmptyObj (objField src "dependencies"))))) := by
    simp only [mergeSchemaInto, hs, hd, jsTruthy, if_true, objFieldsOf]
  refine ⟨_, _, hrun, ?_⟩
  rw [lookup_assignFrom_none _ _ _ hfilter]
  exact hdv

/-- Witness for C2 at a concrete merge: a string-typed destination
property p and a boolean-typed source property p. -/
theorem c2_merge_never_narrows_to_boolean_witness :
    ∃ src1 deps1,
      mergeSchemaInto
        (.obj (.cons "properties"
          (.obj (.cons "p" (.obj (.cons "type" (.str "string") .nil)) .nil)) .nil))
        (.obj (.cons "properties"
          (.obj (.cons "p" (.obj (.cons "type" (.str "boolean") .nil)) .nil)) .nil))
        .nil
        = .ok (setField
            (.obj (.cons "properties"
              (.obj (.cons "p" (.obj (.cons "type" (.str "string") .nil)) .nil)) .nil))
            "properties"
            (.obj ((JObj.cons "p" (.obj (.cons "type" (.str "string") .nil)) .nil).assignFrom
              (filterNoOverwrite
                (.obj (.cons "properties"
                  (.obj (.cons "p" (.obj (.cons "type" (.str "string") .nil)) .nil)) .nil))
                (.cons "p" (.obj (.cons "type" (.str "boolean") .nil)) .nil)))),
            src1, deps1)
      ∧ ((JObj.cons "p" (.obj (.cons "type" (.str "string") .nil)) .nil).assignFrom
          (filterNoOverwrite
            (.obj (.cons "properties"
              (.obj (.cons "p" (.obj (.cons "type" (.str "string") .nil)) .nil)) .nil))
            (.cons "p" (.obj (.cons "type" (.str "boolean") .nil)) .nil))).lookup "p"
          = some (.obj (.cons "type" (.str "string") .nil)) :=
  c2_merge_never_narrows_to_boolean _ _ .nil _ _ "p" _ _ "string"
    rfl rfl rfl (Or.inr rfl) rfl (by simp [JObj.keysList]) rfl rfl

/-! C1: the empty-template schema.  The inner _handleParsed does
collapse a propertyless stream to a bare string schema, but
_parametersSchemaFromTemplate (source lines 666-674) rewrites exactly
that shape into an empty object schema before getParametersSchema can
see it, so the exported schema type is object, not string. -/

theorem toklistInd {P : TokList → Prop} (hnil : P .nil)
    (hcons : ∀ t rest, P rest → P (.cons t rest)) : ∀ l, P l
  | .nil => hnil
  | .cons t rest => hcons t rest (toklistInd hnil hcons rest)

/-- A stream of only comment and literal-text tokens. -/
def allCommentText : TokList → Bool
  | .nil => true
  | .cons (.commentT _) rest => allCommentText rest
  | .cons (.textT _) rest => allCommentText rest
  | .cons _ _ => true = false

theorem handleTokensGo_comment_text (ts : List (String × JVal)) (dfs : List (String × String)) :
    ∀ toks, allCommentText toks = true →
      ∀ st acc required deps,
        handleTokensGo ts dfs st toks acc required deps = .ok (st, acc, required, deps) := by
  intro toks
  induction toks using toklistInd with
  | hnil => intro _ st acc required deps; rfl
  | hcons t rest ih =>
    intro h st acc required deps
    cases t with
    | commentT c =>
      simp only [allCommentText] at h
      simp only [handleTokensGo]
      exact ih h st acc required deps
    | textT s =>
      simp only [allCommentText] at h
      simp only [handleTokensGo]
      exact ih h st acc required deps
    | nameT n => simp [allCommentText] at h
    | sectT n c => simp [allCommentText] at h
    | invT n c => simp [allCommentText] at h
    | partT n => simp [allCommentText] at h

/-- C1 (amended): whenever the root inference collapses to the bare
string schema, which is what a propertyless tag stream (no tags, only
comments or literal text, or only the dot placeholder) produces, the
pipeline rewrites the parameters schema to type object with empty
properties, and getParametersSchema therefore reports type object; and
a stream of only comment and literal-text tokens does collapse to the
bare string schema inside _handleParsed. -/
theorem c1_empty_template_schema_is_object :
    (∀ (parse : String → TokList) (ts : List (String × JVal)) (dfs : List (String × String))
       (st : Template) (ist2 ist3 : InferState),
      defsPhase parse ts dfs st = .ok ist2 →
      handleParsed ts dfs ist2 (parse st.templateText)
        = .ok (ist3, .obj (.cons "type" (.str "string") .nil)) →
      ∃ tf, parametersSchemaFromTemplate parse ts dfs st = .ok tf
        ∧ objField tf.parametersSchema "type" = some (.str "object")
        ∧ objField (getParametersSchema tf) "type" = some (.str "object"))
    ∧ (∀ (ts : List (String × JVal)) (dfs : List (String × String)) (ist : InferState)
         (toks : TokList),
        allCommentText toks = true →
        handleParsed ts dfs ist toks = .ok (ist, .obj (.cons "type" (.str "string") .nil))) := by
  constructor
  · intro parse ts dfs st st2 st3 hdefs hroot
    simp only [parametersSchemaFromTemplate, hdefs, hroot]
    exact ⟨_, rfl, rfl, rfl⟩
  · intro ts dfs st toks h
    simp only [handleParsed, handleTokensGo_comment_text ts dfs toks h st freshAcc [] .nil]
    rfl

/-- Witness for C1 at the empty template (no tokens at all, the Mustache
parse of an empty body). -/
theorem c1_empty_template_schema_is_object_witness :
    (∃ tf, parametersSchemaFromTemplate (fun _ => .nil) [] [] {} = .ok tf
      ∧ objField tf.parametersSchema "type" = some (.str "object")
      ∧ objField (getParametersSchema tf) "type" = some (.str "object"))
    ∧ handleParsed [] [] {} (.cons (.commentT "note") .nil)
        = .ok ({}, .obj (.cons "type" (.str "string") .nil)) :=
  ⟨c1_empty_template_schema_is_object.1 (fun _ => .nil) [] [] {} {} {} rfl rfl,
   c1_empty_template_schema_is_object.2 [] [] {} (.cons (.commentT "note") .nil) rfl⟩

/-- Counterexample to C1 as stated: for the empty template the schema
returned by getParametersSchema has type object, not string. -/
theorem c1_counterexample :
    (parametersSchemaFromTemplate (fun _ => .nil) [] [] {}).map
        (fun tf => objField (getParametersSchema tf) "type")
      = .ok (some (.str "object"))
    ∧ ("object" : String) ≠ "string" :=
  ⟨rfl, by decide⟩

/-! C3: section redefinition conflicts, source lines 481-492. -/

/-- C3: during schema inference, re-declaring an existing section
property with a truthy declared type different from the computed
section type raises the definition-conflict error (first conjunct);
re-declaring its items under a different item type raises the item
conflict error (second conjunct, including the missing-space
concatenation of the source message); and re-declaring a section with
the same type as before raises no error, shown end to end on a
template whose stream declares the same array section twice (third
conjunct). -/
theorem c3_section_redefinition_conflict :
    (∀ (st : InferState) (acc : JVal) (required : List String) (deps : JObj)
       (defName typeKey : String) (items defTypeJ existingDef newDef : JVal) (asBool : Bool)
       (accProps : JObj) (exT : JVal),
      getAccProps acc = .ok accProps →
      sectionCompute st accProps defName typeKey items = .ok (defTypeJ, existingDef, newDef, asBool) →
      objField existingDef "type" = some exT →
      jsTruthy exT = true →
      svzOpt (some exT) (some defTypeJ) = false →
      handleSectionTok st acc required deps defName typeKey items
        = .error s!"attempted to redefine {defName} as {jsToString defTypeJ} but it was already defined as {jsToString exT}")
    ∧ (∀ (st : InferState) (acc : JVal) (required : List String) (deps : JObj)
         (defName typeKey : String) (items defTypeJ existingDef newDef : JVal) (asBool : Bool)
         (accProps : JObj) (exIt ndIt : JVal) (ndTypeS exTypeS : String),
        getAccProps acc = .ok accProps →
        sectionCompute st accProps defName typeKey items = .ok (defTypeJ, existingDef, newDef, asBool) →
        (truthyOpt (objField existingDef "type") = false
          ∨ svzOpt (objField existingDef "type") (some defTypeJ) = true) →
        objField existingDef "items" = some exIt →
        jsTruthy exIt = true →
        objField newDef "items" = some ndIt →
        jsTruthy ndIt = true →
        svzOpt (objField exIt "type") (objField ndIt "type") = false →
        dispOpt (objField ndIt "type") = ndTypeS →
        dispOpt (objField exIt "type") = exTypeS →
        handleSectionTok st acc required deps defName typeKey items
          = .error (s!"attempted to redefine {defName}.items as {ndTypeS} but it"
              ++ s!"was already defined as {exTypeS}"))
    ∧ handleParsed [] [] {} (.cons (.sectT "s" .nil) (.cons (.sectT "s" .nil) .nil))
        = .ok ({}, .obj (.cons "type" (.str "object")
            (.cons "properties" (.obj (.cons "s" (.obj (.cons "type" (.str "array")
              (.cons "items" (.obj (.cons "type" (.str "string") .nil))
              (.cons "skip_xform" (.boolean true) .nil)))) .nil))
            (.cons "required" (.arr (.cons (.str "s") .nil)) .nil)))) := by
  refine ⟨?_, ?_, rfl⟩
  · intro st acc required deps defName typeKey items defTypeJ existingDef newDef asBool
      accProps exT hacc hcomp hex htruth hne
    simp only [handleSectionTok, hacc, hcomp, hex, truthyOpt, htruth, hne, dispOpt]
    simp
  · intro st acc required deps defName typeKey items defTypeJ existingDef newDef asBool
      accProps exIt ndIt ndTypeS exTypeS hacc hcomp hTypePass hexIt hexTruth hndIt hndTruth hneT
      hndS hexS
    subst hndS
    subst hexS
    simp only [handleSectionTok, hacc, hcomp, hexIt, hndIt]
    have hcond : ¬ (truthyOpt (objField existingDef "type") = true
        ∧ ¬ svzOpt (objField existingDef "type") (some defTypeJ) = true) := by
      rcases hTypePass with h | h
      · intro hc
        rw [h] at hc
        exact Bool.false_ne_true hc.1
      · intro hc
        exact hc.2 h
    rw [if_neg hcond]
    simp only [truthyOpt, hexTruth, hndTruth, hneT]
    simp

/-- Witness for C3: the type conflict at a section re-declared as array
over an existing object property, and the item conflict at an array
section whose existing items were object-typed. -/
theorem c3_section_redefinition_conflict_witness :
    handleSectionTok {} (.obj (.cons "type" (.str "object")
        (.cons "properties" (.obj (.cons "s" (.obj (.cons "type" (.str "object") .nil)) .nil)) .nil)))
        [] .nil "s" "undefined" (.obj (.cons "type" (.str "string") .nil))
      = .error "attempted to redefine s as array but it was already defined as object"
    ∧ handleSectionTok {} (.obj (.cons "type" (.str "object")
        (.cons "properties" (.obj (.cons "s" (.obj (.cons "type" (.str "array")
          (.cons "items" (.obj (.cons "type" (.str "object") .nil)) .nil))) .nil)) .nil)))
        [] .nil "s" "undefined" (.obj (.cons "type" (.str "string") .nil))
      = .error ("attempted to redefine s.items as string but it"
          ++ "was already defined as object") := by
  constructor
  · exact c3_section_redefinition_conflict.1 {} _ [] .nil "s" "undefined"
      (.obj (.cons "type" (.str "string") .nil))
      (.str "array") (.obj (.cons "type" (.str "object") .nil))
      (.obj (.cons "type" (.str "array") (.cons "items" (.obj (.cons "type" (.str "string") .nil))
        (.cons "skip_xform" (.boolean true) .nil))))
      (true = false) (.cons "s" (.obj (.cons "type" (.str "object") .nil)) .nil)
      (.str "object") rfl rfl rfl rfl rfl
  · exact c3_section_redefinition_conflict.2.1 {} _ [] .nil "s" "undefined"
      (.obj (.cons "type" (.str "string") .nil))
      (.str "array")
      (.obj (.cons "type" (.str "array") (.cons "items" (.obj (.cons "type" (.str "object") .nil)) .nil)))
      (.obj (.cons "type" (.str "array") (.cons "items" (.obj (.cons "type" (.str "string") .nil))
        (.cons "skip_xform" (.boolean true) .nil))))
      (true = false)
      (.cons "s" (.obj (.cons "type" (.str "array")
        (.cons "items" (.obj (.cons "type" (.str "object") .nil)) .nil))) .nil)
      (.obj (.cons "type" (.str "object") .nil))
      (.obj (.cons "type" (.str "string") .nil))
      "string" "object"
      rfl rfl (Or.inr rfl) rfl rfl rfl rfl rfl rfl rfl

/-! C4: required-ness of inferred properties. -/

theorem mem_addSet (l : List String) (x d : String) :
    d ∈ addSet l x ↔ d ∈ l ∨ d = x := by
  unfold addSet
  by_cases h : l.contains x
  · simp only [h, if_true]
    constructor
    · exact Or.inl
    · rintro (hm | rfl)
      · exact hm
      · exact List.mem_of_elem_eq_true h
  · have hm : x ∉ l := fun hx => h (List.elem_eq_true_of_mem hx)
    simp [hm, List.mem_append]

theorem nameBaseProp_truthy (ts : List (String × JVal)) (mstName : String) :
    jsTruthy (nameBaseProp ts mstName) = true := by
  simp only [nameBaseProp]
  repeat' split
  all_goals rfl

theorem pullMath_mem (m : String) (tds : JObj) (d : String) :
    ∀ (props : JObj) (req : List String),
      truthyOpt (props.lookup d) = true →
      (d ∈ (pullMathDeps m tds props req).2 ↔ d ∈ req) := by
  induction tds using jobjInd with
  | hnil => intro props req _; rfl
  | hcons key defProp rest ih =>
    intro props req hd
    simp only [pullMathDeps]
    by_cases hc : (¬ truthyOpt (props.lookup key) = true) ∧ strHas m key = true
    · rw [if_pos hc]
      have hkd : key ≠ d := by
        intro hkd
        rw [hkd] at hc
        exact hc.1 hd
      have hd2 : truthyOpt ((props.set key
          (.obj (JObj.assignFrom .nil (objFieldsOf defProp)))).lookup d) = true := by
        rw [lookup_set_ne _ _ _ _ hkd]
        exact hd
      rw [ih _ _ hd2, mem_addSet]
      constructor
      · rintro (hm | rfl)
        · exact hm
        · exact absurd rfl (Ne.symm hkd)
      · exact Or.inl
    · rw [if_neg hc]
      exact ih _ _ hd

theorem isPropRequired_of_default {p : JVal} (h : (objField p "default").isSome) :
    isPropRequired p = false := by
  unfold isPropRequired
  rcases Option.isSome_iff_exists.mp h with ⟨v, hv⟩
  simp [hv]

theorem nameMathStep_mem (st : InferState) (props1 : JObj) (required1 : List String)
    (prop3 : JVal) (d : String) (r : JObj × List String × JVal)
    (hd : truthyOpt (props1.lookup d) = true)
    (h : nameMathStep st props1 required1 prop3 = .ok r) :
    d ∈ r.2.1 ↔ d ∈ required1 := by
  unfold nameMathStep at h
  split at h
  · split at h
    · split at h
      · simp only [Except.ok.injEq] at h
        rw [← h]
        exact pullMath_mem _ _ _ _ _ hd
      · simp at h
    · split at h
      · simp only [Except.ok.injEq] at h
        rw [← h]
        exact pullMath_mem _ _ _ _ _ hd
      · simp at h
  · simp only [Except.ok.injEq] at h
    rw [← h]

theorem not_mem_delSet (l : List String) (x : String) : x ∉ delSet l x := by
  simp [delSet]

/-- C4 (amended): at a variable token the name is placed in required
exactly when _isPropRequired holds of the property definition computed
for it (the token fragment merged with the author definition) or it was
already required; in particular a default in that definition keeps the
name out of required, and the same definition with the condition
satisfied (no default, format not hidden or info, no truthy
mathExpression or dataFile) puts it in.  The rule is per-construct, not
global: an inverted section always removes its toggle from required
(second conjunct), which is what refutes the claim as stated. -/
theorem c4_name_required_rule :
    (∀ (st : InferState) (ts : List (String × JVal)) (dfs : List (String × String))
       (acc : JVal) (required : List String) (mstName : String)
       (acc1 : JVal) (required1 : List String),
      handleNameTok st ts dfs acc required mstName = .ok (acc1, required1) →
      ((defNameOf mstName ∈ required1 ↔
          defNameOf mstName ∈ required ∨ isPropRequired (namePropMerged st ts mstName) = true)
        ∧ ((objField (namePropMerged st ts mstName) "default").isSome →
            (defNameOf mstName ∈ required1 ↔ defNameOf mstName ∈ required))
        ∧ (isPropRequired (namePropMerged st ts mstName) = true →
            defNameOf mstName ∈ required1)))
    ∧ (∀ (st : InferState) (acc : JVal) (required : List String) (deps : JObj)
         (defName typeKey : String) (items : JVal)
         (st1 : InferState) (acc1 : JVal) (required1 : List String) (deps1 : JObj),
        handleInvTok st acc required deps defName typeKey items = .ok (st1, acc1, required1, deps1) →
        defName ∉ required1) := by
  constructor
  · intro st ts dfs acc required mstName acc1 required1 h
    simp only [handleNameTok] at h
    split at h
    · simp at h
    · split at h
      · simp at h
      · rename_i props0 hprops
        split at h
        · simp at h
        · rename_i props2 required2 prop4 hM
          split at h
          · simp at h
          · rename_i prop5 hD
            simp only [Except.ok.injEq, Prod.mk.injEq] at h
            have hreq1 : required1 = required2 := h.2.symm
            subst hreq1
            have hbase : truthyOpt ((props0.set (defNameOf mstName)
                (nameBaseProp ts mstName)).lookup (defNameOf mstName)) = true := by
              rw [lookup_set_eq]
              exact nameBaseProp_truthy ts mstName
            have hmem : defNameOf mstName ∈ required1 ↔
                defNameOf mstName ∈
                  (if isPropRequired (namePropMerged st ts mstName) = true
                   then addSet required (defNameOf mstName) else required) :=
              nameMathStep_mem st _ _ _ _ (props2, required1, prop4) hbase hM
            refine ⟨?_, ?_, ?_⟩
            · rw [hmem]
              by_cases hr : isPropRequired (namePropMerged st ts mstName) = true
              · simp only [hr, if_true, mem_addSet]
                try tauto
              · simp only [hr, if_false]
                try tauto
            · intro hdef
              rw [hmem, isPropRequired_of_default hdef]
              simp
            · intro hr
              rw [hmem, hr, if_pos rfl, mem_addSet]
              tauto
  · intro st acc required deps defName typeKey items st1 acc1 required1 deps1 h
    simp only [handleInvTok] at h
    split at h
    · simp at h
    · split at h
      · simp at h
      · split at h
        · simp at h
        · split at h
          · simp at h
          · simp only [Except.ok.injEq, Prod.mk.injEq] at h
            have : required1 = delSet required defName := h.2.2.1.symm
            rw [this]
            exact not_mem_delSet required defName

/-- Witness for C4: a bare variable token with no author definition is
required; with an author default it is not. -/
theorem c4_name_required_rule_witness :
    ((("n" : String) ∈ ["n"] ↔ ("n" : String) ∈ ([] : List String)
        ∨ isPropRequired (namePropMerged {} [] "n") = true)
      ∧ (("n" : String) ∈ ["n"]))
    ∧ (("x" : String) ∉ ([] : List String)) := by
  have h1 := c4_name_required_rule.1 {} [] []
    freshAcc [] "n"
    (setProps freshAcc (JObj.nil.set "n" (nameBaseProp [] "n"))) ["n"] rfl
  have h2 := c4_name_required_rule.2 {}
    freshAcc [] .nil "x" "undefined" (.obj (.cons "type" (.str "string") .nil))
    {} (.obj (.cons "type" (.str "object")
      (.cons "properties" (.obj (.cons "x" (.obj (.cons "type" (.str "boolean") .nil)) .nil)) .nil)))
    [] .nil rfl
  exact ⟨⟨h1.1, List.mem_singleton.mpr rfl⟩, h2⟩

/-- Counterexample to C4 as stated: the inverted-section toggle x is a
produced property whose definition satisfies the required condition
(format neither hidden nor info, no mathExpression, no dataFile, no
default), yet the inferred schema has an empty required set. -/
theorem c4_counterexample :
    handleParsed [] [] {} (.cons (.invT "x" .nil) .nil)
      = .ok ({}, .obj (.cons "type" (.str "object")
          (.cons "properties" (.obj (.cons "x" (.obj (.cons "type" (.str "boolean") .nil)) .nil))
          (.cons "required" (.arr .nil) .nil))))
    ∧ isPropRequired (.obj (.cons "type" (.str "boolean") .nil)) = true
    ∧ jarrMemSVZ (.str "x") .nil = false :=
  ⟨rfl, rfl, rfl⟩

/-! C5: error propagation in the render fragment loops. -/

theorem pushAll_oks (ss acc : List String) : pushAll (ss.map .ok) acc = .ok (acc ++ ss) := by
  induction ss generalizing acc with
  | nil => simp [pushAll]
  | cons s rest ih => simp [pushAll, ih]

theorem pushAll_error (ss : List String) (e : String) (rest : List (Except String String))
    (acc : List String) : pushAll (ss.map .ok ++ .error e :: rest) acc = .error e := by
  induction ss generalizing acc with
  | nil => simp [pushAll]
  | cons s more ih => simp [pushAll, ih]

theorem pushCatch_oks (ss acc : List String) : pushCatch (ss.map .ok) acc = .ok (acc ++ ss) := by
  induction ss generalizing acc with
  | nil => simp [pushCatch]
  | cons s rest ih => simp [pushCatch, ih]

theorem pushCatch_error_nonmatch (ss : List String) (e : String)
    (rest : List (Except String String)) (acc : List String)
    (h : matchFailedValidation e = false) :
    pushCatch (ss.map .ok ++ .error e :: rest) acc = .error e := by
  induction ss generalizing acc with
  | nil => simp [pushCatch, h]
  | cons s more ih => simp [pushCatch, ih]

theorem pushCatch_swallow (e : String) (h : matchFailedValidation e = true) :
    ∀ (xs ys : List (Except String String)) (acc : List String),
      pushCatch (xs ++ .error e :: ys) acc = pushCatch (xs ++ ys) acc := by
  intro xs
  induction xs with
  | nil =>
    intro ys acc
    simp [pushCatch, h]
  | cons x rest ih =>
    intro ys acc
    cases x with
    | ok s => simp [pushCatch, ih]
    | error e2 =>
      by_cases h2 : matchFailedValidation e2 = true
      · simp [pushCatch, h2, ih]
      · simp only [Bool.not_eq_true] at h2
        simp [pushCatch, h2]

/-- C5: in Template.render, every error of an allOf sub-render and of
the root render propagates and aborts the render with no output (the
result is an error, so no rendered string exists), while an anyOf or
oneOf sub-render error is swallowed, excluding only that branch,
exactly when its message matches the failed-validation pattern (the
form every parameter-validation error carries), and propagates
otherwise. -/
theorem c5_render_error_policy :
    (∀ (ss : List String) (e : String) (rest anyOf oneOf : List (Except String String))
       (root : Except String String) (ms : String → String → String)
       (pp : Option (String → String)),
      renderModel (.ok ()) ms pp (ss.map .ok ++ .error e :: rest) anyOf oneOf root = .error e)
    ∧ (∀ (validation : Except String Unit) (ms : String → String → String)
         (pp : Option (String → String)) (allOf : List (Except String String))
         (xs ys : List (Except String String)) (oneOf : List (Except String String))
         (e : String) (root : Except String String),
        matchFailedValidation e = true →
        renderModel validation ms pp allOf (xs ++ .error e :: ys) oneOf root
          = renderModel validation ms pp allOf (xs ++ ys) oneOf root)
    ∧ (∀ (validation : Except String Unit) (ms : String → String → String)
         (pp : Option (String → String)) (allOf anyOf : List (Except String String))
         (xs ys : List (Except String String)) (e : String) (root : Except String String),
        matchFailedValidation e = true →
        renderModel validation ms pp allOf anyOf (xs ++ .error e :: ys) root
          = renderModel validation ms pp allOf anyOf (xs ++ ys) root)
    ∧ (∀ (ss as : List String) (e : String) (rest oneOf : List (Except String String))
         (root : Except String String) (ms : String → String → String)
         (pp : Option (String → String)),
        matchFailedValidation e = false →
        renderModel (.ok ()) ms pp (ss.map .ok) (as.map .ok ++ .error e :: rest) oneOf root
          = .error e)
    ∧ (∀ (ss as os : List String) (e : String) (ms : String → String → String)
         (pp : Option (String → String)),
        renderModel (.ok ()) ms pp (ss.map .ok) (as.map .ok) (os.map .ok) (.error e)
          = .error e) := by
  refine ⟨?_, ?_, ?_, ?_, ?_⟩
  · intro ss e rest anyOf oneOf root ms pp
    simp [renderModel, renderFragments, pushAll_error]
  · intro validation ms pp allOf xs ys oneOf e root h
    simp only [renderModel, renderFragments, pushCatch_swallow e h]
  · intro validation ms pp allOf anyOf xs ys e root h
    simp only [renderModel, renderFragments, pushCatch_swallow e h]
  · intro ss as e rest oneOf root ms pp h
    simp [renderModel, renderFragments, pushAll_oks, pushCatch_error_nonmatch _ _ _ _ h]
  · intro ss as os e ms pp
    simp [renderModel, renderFragments, pushAll_oks, pushCatch_oks]

/-- Witness for C5 at concrete renders: one failing allOf branch, a
swallowed validation failure in anyOf and in oneOf, a non-validation
anyOf failure, and a failing root render. -/
theorem c5_render_error_policy_witness :
    renderModel (.ok ()) PlainTextMergeStrategy none
        [.error "boom"] [] [] (.ok "r") = .error "boom"
    ∧ renderModel (.ok ()) PlainTextMergeStrategy none
        [] ([] ++ .error "Parameters failed validation:\nx" :: []) [] (.ok "r")
      = renderModel (.ok ()) PlainTextMergeStrategy none [] ([] ++ []) [] (.ok "r")
    ∧ renderModel (.ok ()) PlainTextMergeStrategy none
        [] [] ([] ++ .error "Parameters failed validation:\nx" :: []) (.ok "r")
      = renderModel (.ok ()) PlainTextMergeStrategy none [] [] ([] ++ []) (.ok "r")
    ∧ renderModel (.ok ()) PlainTextMergeStrategy none
        ([].map Except.ok) ([].map Except.ok ++ .error "io error" :: []) [] (.ok "r")
      = .error "io error"
    ∧ renderModel (.ok ()) PlainTextMergeStrategy none
        ([].map Except.ok) ([].map Except.ok) ([].map Except.ok) (.error "root boom")
      = .error "root boom" :=
  ⟨c5_render_error_policy.1 [] "boom" [] [] [] (.ok "r") PlainTextMergeStrategy none,
   c5_render_error_policy.2.1 (.ok ()) PlainTextMergeStrategy none [] [] [] []
     "Parameters failed validation:\nx" (.ok "r") (by decide),
   c5_render_error_policy.2.2.1 (.ok ()) PlainTextMergeStrategy none [] [] [] []
     "Parameters failed validation:\nx" (.ok "r") (by decide),
   c5_render_error_policy.2.2.2.1 [] [] "io error" [] [] (.ok "r")
     PlainTextMergeStrategy none (by decide),
   c5_render_error_policy.2.2.2.2 [] [] [] "root boom" PlainTextMergeStrategy none⟩

/-! C6: the merge strategies call deepmerge with its default options, so
array values at a shared key concatenate (earlier fragment first); the
arrayMergeOverwrite helper of source line 33 is not passed there. -/

theorem mergeObjFields_lookup_notin (am : JArr → JArr → JArr) (sf : JObj) (k : String)
    (h : k ∉ sf.keysList) :
    ∀ tf : JObj, (mergeObjFields am tf sf).lookup k = tf.lookup k := by
  induction sf using jobjInd with
  | hnil => intro tf; rfl
  | hcons k2 v2 rest ih =>
    intro tf
    simp only [JObj.keysList, List.mem_cons, not_or] at h
    simp only [mergeObjFields]
    rw [ih h.2, lookup_set_ne _ _ _ _ (Ne.symm h.1)]

theorem mergeObjFields_concat (k : String) (xs ys : JArr) :
    ∀ (sf tf : JObj), tf.lookup k = some (.arr xs) → sf.lookup k = some (.arr ys) →
      sf.keysList.Nodup →
      (mergeObjFields concatAM tf sf).lookup k = some (.arr (xs.append ys)) := by
  intro sf
  induction sf using jobjInd with
  | hnil => intro tf _ hb _; simp [JObj.lookup] at hb
  | hcons k2 v2 rest ih =>
    intro tf ha hb hnodup
    simp only [JObj.keysList, List.nodup_cons] at hnodup
    simp only [JObj.lookup] at hb
    by_cases h2 : k2 = k
    · subst h2
      simp at hb
      subst hb
      simp only [mergeObjFields, ha, isMergeable, deepmergeWith, concatAM]
      rw [mergeObjFields_lookup_notin _ _ _ (by
        intro hm
        exact hnodup.1 hm)]
      rw [lookup_set_eq]
      simp
    · simp only [h2, if_false] at hb
      simp only [mergeObjFields]
      refine ih (tf.set k2 _) ?_ hb hnodup.2
      rw [lookup_set_ne _ _ _ _ h2]
      exact ha

/-- C6 (amended): under the application/json content type the merge of
two structured fragments deep-merges them with the deepmerge defaults,
so an array value present in both fragments at the same key becomes the
earlier array with the later appended (concatenation, not
replacement); the YAML merge strategies perform exactly the same deep
merge before re-serializing. -/
theorem c6_merge_appends_arrays :
    (∀ (a b : JObj) (k : String) (xs ys : JArr),
      a.lookup k = some (.arr xs) → b.lookup k = some (.arr ys) → b.keysList.Nodup →
      objField (JsonMergeStrategyData (.obj a) (.obj b)) k = some (.arr (xs.append ys)))
    ∧ (∀ x y, YamlMergeStrategyData x y = JsonMergeStrategyData x y) := by
  constructor
  · intro a b k xs ys ha hb hnodup
    simp only [JsonMergeStrategyData, deepmergeWith, objField]
    exact mergeObjFields_concat k xs ys b a ha hb hnodup
  · intro x y
    rfl

/-- Witness for C6 at a concrete merge of two fragments sharing the
array-valued key a. -/
theorem c6_merge_appends_arrays_witness :
    objField (JsonMergeStrategyData
        (.obj (.cons "a" (.arr (.cons (.num 1) .nil)) .nil))
        (.obj (.cons "a" (.arr (.cons (.num 2) .nil)) .nil))) "a"
      = some (.arr ((JArr.cons (.num 1) .nil).append (.cons (.num 2) .nil)))
    ∧ YamlMergeStrategyData (.obj .nil) (.obj .nil)
      = JsonMergeStrategyData (.obj .nil) (.obj .nil) :=
  ⟨c6_merge_appends_arrays.1 (.cons "a" (.arr (.cons (.num 1) .nil)) .nil)
      (.cons "a" (.arr (.cons (.num 2) .nil)) .nil) "a"
      (.cons (.num 1) .nil) (.cons (.num 2) .nil) rfl rfl (by simp [JObj.keysList]),
   c6_merge_appends_arrays.2 (.obj .nil) (.obj .nil)⟩

/-- Counterexample to C6 as stated: merging the fragments with a equal
to the one-element arrays one and two yields the concatenation, not the
replacement by the later array. -/
theorem c6_counterexample :
    JsonMergeStrategyData
        (.obj (.cons "a" (.arr (.cons (.num 1) .nil)) .nil))
        (.obj (.cons "a" (.arr (.cons (.num 2) .nil)) .nil))
      = .obj (.cons "a" (.arr (.cons (.num 1) (.cons (.num 2) .nil))) .nil)
    ∧ ¬ (JsonMergeStrategyData
        (.obj (.cons "a" (.arr (.cons (.num 1) .nil)) .nil))
        (.obj (.cons "a" (.arr (.cons (.num 2) .nil)) .nil))
      = .obj (.cons "a" (.arr (.cons (.num 2) .nil)) .nil)) := by
  refine ⟨rfl, ?_⟩
  intro h
  have h1 : (JVal.obj (.cons "a" (.arr (.cons (.num 1) (.cons (.num 2) .nil))) .nil))
      = .obj (.cons "a" (.arr (.cons (.num 2) .nil)) .nil) := h
  injection h1 with h2
  injection h2 with hk hv hr
  injection hv with h3
  injection h3 with h4 h5
  injection h4 with h6
  exact absurd h6 (by decide)

/-! C7: the path-traversal check of loadYaml runs, and must succeed,
before any bundling of external references. -/

theorem checkRefs_error_of_outside (rootDir : String) :
    ∀ (refs : List String), (∃ ref ∈ refs, strLeads (pathRelative rootDir ref) ".." = true) →
      ∃ e, checkRefs rootDir refs = .error e := by
  intro refs
  induction refs with
  | nil => rintro ⟨ref, hm, _⟩; cases hm
  | cons r rest ih =>
    rintro ⟨ref, hm, hbad⟩
    by_cases hr : strLeads (pathRelative rootDir r) ".." = true
    · refine ⟨s!"Found ref to path outside of the template set: {r}", ?_⟩
      simp [checkRefs, hr]
    · rcases List.mem_cons.mp hm with rfl | hm2
      · exact absurd hbad hr
      · rcases ih ⟨ref, hm2, hbad⟩ with ⟨e, he⟩
        refine ⟨e, ?_⟩
        simp only [Bool.not_eq_true] at hr
        simp [checkRefs, hr, he]

/-- C7: during a structured load with a root directory and filesystem
reference resolution (no template provider), a resolved reference whose
relative path escapes the root aborts the whole load with the wrapped
path-traversal error and bundling is never attempted, so no template is
ever produced (first conjunct); and whenever bundling was attempted the
traversal check had already succeeded (second conjunct). -/
theorem c7_traversal_check_before_bundle :
    (∀ (rootDir : String) (refs : List String) (bundleResult : Except String Unit)
       (restOfLoad : Except String Template) (ref : String),
      rootDir ≠ "" → ref ∈ refs → strLeads (pathRelative rootDir ref) ".." = true →
      (loadYamlModel rootDir false refs bundleResult restOfLoad).1 = false
      ∧ ∃ e, (loadYamlModel rootDir false refs bundleResult restOfLoad).2
          = .error ("Parsing references failed:\n" ++ e))
    ∧ (∀ (rootDir : String) (hp : Bool) (refs : List String) (bundleResult : Except String Unit)
         (restOfLoad : Except String Template),
        (loadYamlModel rootDir hp refs bundleResult restOfLoad).1 = true →
        checkRefs rootDir (if rootDir ≠ "" ∧ ¬ hp = true then refs else []) = .ok ()) := by
  constructor
  · intro rootDir refs bundleResult restOfLoad ref hroot hm hbad
    obtain ⟨e, he⟩ := checkRefs_error_of_outside rootDir refs ⟨ref, hm, hbad⟩
    have hcond : (rootDir ≠ "" ∧ ¬ (false : Bool) = true) := ⟨hroot, by simp⟩
    simp only [loadYamlModel, loadYamlRefPhase, if_pos hcond, he]
    exact ⟨rfl, e, rfl⟩
  · intro rootDir hp refs bundleResult restOfLoad h
    simp only [loadYamlModel, loadYamlRefPhase] at h
    cases hc : checkRefs rootDir (if rootDir ≠ "" ∧ ¬ hp = true then refs else []) with
    | error e =>
      rw [hc] at h
      simp at h
    | ok u => rfl

/-- Witness for C7: a reference resolving to a path outside the
template-set root directory. -/
theorem c7_traversal_check_before_bundle_witness :
    ((loadYamlModel "/root/ts" false ["/etc/passwd"] (.ok ()) (.ok {})).1 = false
      ∧ ∃ e, (loadYamlModel "/root/ts" false ["/etc/passwd"] (.ok ()) (.ok {})).2
          = .error ("Parsing references failed:\n" ++ e))
    ∧ checkRefs "/root/ts" (if ("/root/ts" : String) ≠ "" ∧ ¬ (false : Bool) = true
        then ["/root/ts/a.yaml"] else []) = .ok () :=
  ⟨c7_traversal_check_before_bundle.1 "/root/ts" ["/etc/passwd"] (.ok ()) (.ok {})
      "/etc/passwd" (by decide) (List.mem_singleton.mpr rfl) rfl,
   c7_traversal_check_before_bundle.2 "/root/ts" false ["/root/ts/a.yaml"] (.ok ()) (.ok {}) rfl⟩

/-! C8: sourceHash provenance.  The digest is set once by _recordSource
and no later pipeline stage writes the source fields; but the hash
covers sourceText alone, so a same-text MST and YAML load share it. -/

theorem descriptionFromTemplate_src (t : Template) (toks : TokList) :
    (descriptionFromTemplate t toks).sourceType = t.sourceType
    ∧ (descriptionFromTemplate t toks).sourceText = t.sourceText
    ∧ (descriptionFromTemplate t toks).sourceHash = t.sourceHash := by
  unfold descriptionFromTemplate
  cases firstComment toks <;> exact ⟨rfl, rfl, rfl⟩

theorem parametersSchemaFromTemplate_src (parse : String → TokList)
    (ts : List (String × JVal)) (dfs : List (String × String)) (st t : Template)
    (h : parametersSchemaFromTemplate parse ts dfs st = .ok t) :
    t.sourceType = st.sourceType ∧ t.sourceText = st.sourceText
    ∧ t.sourceHash = st.sourceHash := by
  unfold parametersSchemaFromTemplate at h
  split at h
  · simp at h
  · split at h
    · simp at h
    · simp only [Except.ok.injEq] at h
      rw [← h]
      exact ⟨rfl, rfl, rfl⟩

/-- C8 (amended): a tag-based load computes the hash exactly once, when
the source is recorded, and every later stage leaves the provenance
fields unchanged, so the loaded template carries the SHA-256 digest of
its source text with sourceType MST (first conjunct); and the digest
depends on sourceText alone, so recording the same text under any two
source types yields the same hash (second conjunct) - which is why
equal hashes only certify equal source texts, not equal
(sourceType, sourceText) pairs. -/
theorem c8_source_hash_once :
    (∀ (parse : String → TokList) (ts : List (String × JVal)) (dfs : List (String × String))
       (metaValid : String → Bool) (msttext : String) (t : Template),
      loadMst parse ts dfs metaValid msttext = .ok t →
      t.sourceHash = sha256Hex msttext ∧ t.sourceType = "MST" ∧ t.sourceText = msttext)
    ∧ (∀ (t0 : Template) (ty1 ty2 s : String),
        (recordSource t0 ty1 s).sourceHash = (recordSource t0 ty2 s).sourceHash) := by
  constructor
  · intro parse ts dfs metaValid msttext t h
    unfold loadMst at h
    split at h
    · simp at h
    · obtain ⟨h1, h2, h3⟩ := parametersSchemaFromTemplate_src _ _ _ _ _ h
      obtain ⟨d1, d2, d3⟩ := descriptionFromTemplate_src
        { recordSource {} "MST" msttext with templateText := msttext } (parse msttext)
      rw [h3, d3, h1, d1, h2, d2]
      exact ⟨rfl, rfl, rfl⟩
  · intro t0 ty1 ty2 s
    rfl

/-- The template value the modelled tag-based load produces for the
plain body hi with no providers. -/
def c8LoadedTemplate : Template :=
  { parametersSchema := .obj (.cons "type" (.str "object") (.cons "properties" (.obj .nil) .nil))
    templateText := "hi"
    sourceType := "MST"
    sourceText := "hi"
    sourceHash := sha256Hex "hi" }

/-- Witness for C8 at the concrete load of the template text hi. -/
theorem c8_source_hash_once_witness :
    c8LoadedTemplate.sourceHash = sha256Hex "hi"
    ∧ c8LoadedTemplate.sourceType = "MST"
    ∧ c8LoadedTemplate.sourceText = "hi" :=
  c8_source_hash_once.1 (fun _ => .nil) [] [] (fun _ => true) "hi" c8LoadedTemplate rfl

/-- Counterexample to C8 as stated: recording the same source text as an
MST load and as a YAML load produces the same sourceHash from two
different (sourceType, sourceText) pairs, so equal hashes do not imply
the same pair. -/
theorem c8_counterexample :
    (recordSource {} "MST" "template: x").sourceHash
      = (recordSource {} "YAML" "template: x").sourceHash
    ∧ (("MST", "template: x") : String × String) ≠ ("YAML", "template: x") :=
  ⟨rfl, by decide⟩

/-! C9: the global escape override makes interpolation verbatim. -/

/-- C9: the engine globally replaces the Mustache escape hook by the
identity, so rendering substitutes parameter values verbatim: a
variable token contributes exactly the looked-up value, with ampersand,
angle-bracket and quote characters unchanged. -/
theorem c9_no_html_escaping :
    (∀ s : String, mustacheEscape s = s)
    ∧ (∀ (pre n post : String) (view : List (String × String)) (v : String),
        assocLookup view n = some v →
        (renderRootFragment view
          (.cons (.textT pre) (.cons (.nameT n) (.cons (.textT post) .nil)))).data
          = pre.data ++ v.data ++ post.data) := by
  constructor
  · intro s
    rfl
  · intro pre n post view v h
    simp only [renderRootFragment, mustacheRenderToks, h, Option.getD_some, mustacheEscape]
    change pre.data ++ (v.data ++ (post.data ++ [])) = pre.data ++ v.data ++ post.data
    simp

/-- Witness for C9: the special characters of the value survive the
render byte for byte. -/
theorem c9_no_html_escaping_witness :
    (renderRootFragment [("name", "<&>\"")]
      (.cons (.textT "Hello ") (.cons (.nameT "name") (.cons (.textT "!") .nil)))).data
      = ("Hello " : String).data ++ ("<&>\"" : String).data ++ ("!" : String).data :=
  c9_no_html_escaping.2 "Hello " "name" "!" [("name", "<&>\"")] "<&>\"" rfl

/-! C10: a missing parameters argument behaves as an empty object. -/

/-- C10: getCombinedParameters replaces a null or undefined parameters
argument by an empty object before folding defaults, so the combined
parameters are identical to those of an explicit empty object, and
validateParameters (which render invokes on the same argument) succeeds
for the missing argument exactly when it succeeds for the empty object;
no error arises from the absence of the argument itself. -/
theorem c10_missing_parameters_default_to_empty :
    ∀ (mexpEval : String → List (String × JVal) → JVal) (validator : JVal → Option String)
      (t : Template),
      getCombinedParameters mexpEval t none = getCombinedParameters mexpEval t (some (.obj .nil))
      ∧ getCombinedParameters mexpEval t (some .null)
          = getCombinedParameters mexpEval t (some (.obj .nil))
      ∧ ((validateParameters mexpEval validator t none = .ok ())
          ↔ validateParameters mexpEval validator t (some (.obj .nil)) = .ok ())
      ∧ ((validateParameters mexpEval validator t (some .null) = .ok ())
          ↔ validateParameters mexpEval validator t (some (.obj .nil)) = .ok ()) := by
  intro mexpEval validator t
  have h1 : getCombinedParameters mexpEval t none
      = getCombinedParameters mexpEval t (some (.obj .nil)) := rfl
  have h2 : getCombinedParameters mexpEval t (some .null)
      = getCombinedParameters mexpEval t (some (.obj .nil)) := rfl
  refine ⟨h1, h2, ?_, ?_⟩
  · unfold validateParameters
    rw [h1]
    cases hv : validator (getCombinedParameters mexpEval t (some (.obj .nil))) <;> simp [hv]
  · unfold validateParameters
    rw [h2]
    cases hv : validator (getCombinedParameters mexpEval t (some (.obj .nil))) <;> simp [hv]

end FastCore
